import Mathlib

/-!
Routing table and HTTP/1 connection pool of the proxy core.

A shallow embedding of `pkg/router/basic/router.go` and
`pkg/stream/http/connpool_fasthttp.go`.

* Go pointers are addresses (`Nat`) into explicit heaps; a nil pointer is `none`.
* A Go panic (nil pointer dereference) is the `Except.error` outcome.
* `time.Duration` and the counters are integers.
* Collaborators that live outside these two files (stats counters, resource
  manager, codec client, pool event listener) are modelled by the state they
  expose at their interface.
-/

set_option autoImplicit false

namespace Mosn

/-! ## Common -/

/-- Runtime failure of a Go call. -/
inductive Panic where
  /-- Dereference of a nil pointer. -/
  | nilPointerDereference
  deriving DecidableEq, Repr

/-- Go `time.Duration`: a count of nanoseconds. -/
abbrev Duration := Int

/-! ## pkg/router/basic/router.go -/

/-- Go `map[string]string`; `none` is the nil map, `m k = none` an absent key. -/
abbrev Headers := Option (String → Option String)

/-- Record `routerPolicy` (router.go, lines 272-276). -/
structure routerPolicy where
  retryOn : Bool
  retryTimeout : Duration
  numRetries : Int
  deriving DecidableEq, Repr

/-- A `*routerPolicy`: `none` is nil, `some a` the object at address `a`
of the policy heap. -/
abbrev PolicyRef := Option Nat

/-- The `routerPolicy` objects allocated so far; the address of an object is
its position. -/
abbrev PolicyHeap := List routerPolicy

/-- Record `basicRouter` (router.go, lines 93-100). -/
structure basicRouter where
  name : String
  service : String
  cluster : String
  globalTimeout : Duration
  policy : PolicyRef
  deriving DecidableEq, Repr

/-- Record `DynamicRouter` (router.go, lines 102-106). -/
structure DynamicRouter where
  globalTimeout : Duration
  policy : PolicyRef
  deriving DecidableEq, Repr

/-- An element of `[]router.RouteBase`: the two implementations in this file. -/
inductive RouteBase where
  | static (srr : basicRouter)
  | dynamic (drr : DynamicRouter)
  deriving DecidableEq, Repr

/-- A `sync.RWMutex` that no one holds. `Lock` followed by the deferred
`Unlock` of one sequential call leaves it as it was. -/
structure RWMutex where
  deriving DecidableEq, Repr

/-- Record `Routers` (router.go, lines 21-24); `rMutex` is a pointer. -/
structure Routers where
  rMutex : Option RWMutex
  routers : List RouteBase
  deriving DecidableEq, Repr

/-- Method `basicRouter.Match` (router.go, lines 169-189). -/
def basicRouter.Match (srr : basicRouter) (headers : Headers) : Option RouteBase × String :=
  match headers with
  | none => (none, "")
  | some m =>
    match m "Service" with
    | some service =>
      if srr.service = service then (some (.static srr), service) else (none, service)
    | none =>
      match m "service" with
      | some service =>
        if srr.service = service then (some (.static srr), service) else (none, service)
      | none => (none, "")

/-- Method `DynamicRouter.Match` (router.go, lines 191-206). -/
def DynamicRouter.Match (drr : DynamicRouter) (headers : Headers) : Option RouteBase × String :=
  match headers with
  | none => (none, "")
  | some m =>
    match m "Service" with
    | some service => (some (.dynamic drr), service)
    | none =>
      match m "service" with
      | some service => (some (.dynamic drr), service)
      | none => (none, "")

/-- Interface method `Match`, dispatched on the implementation. -/
def RouteBase.Match : RouteBase → Headers → Option RouteBase × String
  | .static srr, headers => srr.Match headers
  | .dynamic drr, headers => drr.Match headers

/-- Methods `GetRouterName` (router.go, lines 264-270). -/
def RouteBase.GetRouterName : RouteBase → String
  | .static srr => srr.name
  | .dynamic _ => ""

/-- Methods `GlobalTimeout` (router.go, lines 243-249). -/
def RouteBase.GlobalTimeout : RouteBase → Duration
  | .static srr => srr.globalTimeout
  | .dynamic drr => drr.globalTimeout

/-- Methods `Policy` followed by the assertion `.(*routerPolicy)`
(router.go, lines 251-257, 61, 143): the pointer stored in the entry. -/
def RouteBase.Policy : RouteBase → PolicyRef
  | .static srr => srr.policy
  | .dynamic drr => drr.policy

/-- Method `DynamicRouter.MapRule` (router.go, lines 260-262). -/
def DynamicRouter.MapRule (_drr : DynamicRouter) (routeKey : String) : String := routeKey

/-- Methods `ClusterName` (router.go, lines 233-240). -/
def RouteBase.ClusterName : RouteBase → String → String
  | .static srr, _ => srr.cluster
  | .dynamic drr, clusterKey => drr.MapRule clusterKey

/-- The `range` loop of `Routers.Route` (router.go, lines 29-35) over the
entries still to visit. -/
def Routers.Route.loop (headers : Headers) : List RouteBase → Option RouteBase × String
  | [] => (none, "")
  | r :: rest =>
    match r.Match headers with
    | (some rule, key) => (some rule, key)
    | (none, _) => Routers.Route.loop headers rest

/-- Method `Routers.Route` (router.go, lines 27-36). It takes no lock. -/
def Routers.Route (rc : Routers) (headers : Headers) : Option RouteBase × String :=
  Routers.Route.loop headers rc.routers

/-- The allocation `&routerPolicy{...}`: the new object goes to the end of the
heap and its address is returned. -/
def PolicyHeap.alloc (mem : PolicyHeap) (p : routerPolicy) : PolicyHeap × PolicyRef :=
  (mem ++ [p], some mem.length)

/-- The first `range` loop of `Routers.AddRouter` (router.go, lines 43-49):
whether some entry answers `routerName` to `GetRouterName`. -/
def Routers.AddRouter.hasName : List RouteBase → String → Bool
  | [], _ => false
  | r :: rest, routerName =>
    if r.GetRouterName = routerName then true else Routers.AddRouter.hasName rest routerName

/-- Method `Routers.AddRouter` (router.go, lines 38-73). `GlobalTimeout` stands
for the constant `types.GlobalTimeout`, declared outside this file. -/
def Routers.AddRouter (GlobalTimeout : Duration) (mem : PolicyHeap) (rc : Routers)
    (routerName : String) : Except Panic (PolicyHeap × Routers) :=
  match rc.rMutex with
  | none => .error .nilPointerDereference
  | some _ =>
    if Routers.AddRouter.hasName rc.routers routerName then .ok (mem, rc)
    else
      match rc.routers with
      | first :: _ =>
        let br : basicRouter :=
          { name := routerName, service := routerName, cluster := routerName
            globalTimeout := first.GlobalTimeout, policy := first.Policy }
        .ok (mem, { rc with routers := rc.routers ++ [.static br] })
      | [] =>
        let a := mem.alloc { retryOn := false, retryTimeout := 0, numRetries := 0 }
        let br : basicRouter :=
          { name := routerName, service := routerName, cluster := routerName
            globalTimeout := GlobalTimeout, policy := a.2 }
        .ok (a.1, { rc with routers := rc.routers ++ [.static br] })

/-- The `range` loop of `Routers.DelRouter` (router.go, lines 79-87): `all` is
`rc.routers`, the list argument its entries from index `i` on. At the first
entry named `routerName` the result is `append(all[:i], all[i+1:]...)`. -/
def Routers.DelRouter.loop (all : List RouteBase) (routerName : String) :
    List RouteBase → Nat → List RouteBase
  | [], _ => all
  | r :: rest, i =>
    if r.GetRouterName = routerName then all.take i ++ all.drop (i + 1)
    else Routers.DelRouter.loop all routerName rest (i + 1)

/-- Method `Routers.DelRouter` (router.go, lines 75-88). -/
def Routers.DelRouter (rc : Routers) (routerName : String) : Except Panic Routers :=
  match rc.rMutex with
  | none => .error .nilPointerDereference
  | some _ => .ok { rc with routers := Routers.DelRouter.loop rc.routers routerName rc.routers 0 }

/-- Modelled from the spec: the retry-policy sub-configuration of a route rule
(declared outside these files, read at router.go lines 120-125). -/
structure RetryPolicy where
  RetryOn : Bool
  RetryTimeout : Duration
  NumRetries : Int
  deriving DecidableEq, Repr

/-- Modelled from the spec: a route rule of the proxy configuration,
`{name, service, cluster, globalTimeout, retryPolicy?}` (declared outside these
files, read at router.go lines 112-125). -/
structure BasicServiceRoute where
  Name : String
  Service : String
  Cluster : String
  GlobalTimeout : Duration
  RetryPolicy : Option RetryPolicy
  deriving DecidableEq, Repr

/-- Modelled from the spec: the proxy configuration `v2.Proxy` (declared
outside these files): the ordered rules and the flag enabling the trailing
dynamic rule. -/
structure Proxy where
  Routes : List BasicServiceRoute
  SupportDynamicRoute : Bool
  deriving DecidableEq, Repr

/-- The `interface{}` argument of `NewRouters`: a `*v2.Proxy` (possibly the nil
pointer) or a value of another type. -/
inductive Config where
  | proxy (p : Option Proxy)
  | other (tag : Nat)
  deriving DecidableEq, Repr

/-- The pair `(types.Routers, error)` that `NewRouters` returns. -/
inductive NewRoutersResult where
  | routers (mem : PolicyHeap) (rc : Routers)
  | error (msg : String)
  deriving DecidableEq, Repr

/-- The `range` loop of `NewRouters` (router.go, lines 112-136): one
`basicRouter` with a policy object of its own per rule, in order. -/
def NewRouters.loop : PolicyHeap → List BasicServiceRoute → PolicyHeap × List RouteBase
  | mem, [] => (mem, [])
  | mem, r :: rest =>
    let a :=
      match r.RetryPolicy with
      | some rp =>
        mem.alloc
          { retryOn := rp.RetryOn, retryTimeout := rp.RetryTimeout, numRetries := rp.NumRetries }
      | none => mem.alloc { retryOn := false, retryTimeout := 0, numRetries := 0 }
    let router : basicRouter :=
      { name := r.Name, service := r.Service, cluster := r.Cluster
        globalTimeout := r.GlobalTimeout, policy := a.2 }
    let out := NewRouters.loop a.1 rest
    (out.1, .static router :: out.2)

/-- Function `NewRouters` (router.go, lines 108-167). The `Routers` literal of
lines 155-159 sets `routers` only, so `rMutex` is nil. `GlobalTimeout` stands
for the constant `types.GlobalTimeout`. -/
def NewRouters (GlobalTimeout : Duration) (mem : PolicyHeap) (config : Config) :
    Except Panic NewRoutersResult :=
  match config with
  | .other _ => .ok (.error "invalid config struct")
  | .proxy none => .error .nilPointerDereference
  | .proxy (some config) =>
    let built := NewRouters.loop mem config.Routes
    if config.SupportDynamicRoute then
      match built.2 with
      | first :: _ =>
        let dynamicRouter : DynamicRouter :=
          { globalTimeout := first.GlobalTimeout, policy := first.Policy }
        .ok (.routers built.1 { rMutex := none, routers := built.2 ++ [.dynamic dynamicRouter] })
      | [] =>
        let a := built.1.alloc { retryOn := false, retryTimeout := 0, numRetries := 0 }
        let dynamicRouter : DynamicRouter := { globalTimeout := GlobalTimeout, policy := a.2 }
        .ok (.routers a.1 { rMutex := none, routers := built.2 ++ [.dynamic dynamicRouter] })
    else .ok (.routers built.1 { rMutex := none, routers := built.2 })

/-! ## pkg/stream/http/connpool_fasthttp.go -/

/-- A stats counter with `Inc` and `Dec`. -/
abbrev Counter := Int

/-- Modelled from the spec: the per-host and per-cluster stats records
(`types.HostStats`, `types.ClusterStats`) are declared outside these files; they
expose named counters, of which these are the ones the pool touches. -/
structure Stats where
  UpstreamConnectionTotal : Counter
  UpstreamConnectionActive : Counter
  UpstreamConnectionTotalHttp1 : Counter
  UpstreamConnectionConFail : Counter
  UpstreamConnectionLocalCloseWithActiveRequest : Counter
  UpstreamConnectionRemoteCloseWithActiveRequest : Counter
  UpstreamConnectionCloseNotify : Counter
  UpstreamRequestTotal : Counter
  UpstreamRequestActive : Counter
  UpstreamRequestPendingOverflow : Counter
  UpstreamRequestTimeout : Counter
  UpstreamRequestFailureEject : Counter
  UpstreamRequestLocalReset : Counter
  UpstreamRequestRemoteReset : Counter
  deriving DecidableEq, Repr

/-- Modelled from the spec: the resource behind `ResourceManager().Requests()`
is declared outside these files; it bounds the in-flight request concurrency:
`current` is the in-flight counter and `max` the budget. -/
structure Resource where
  current : Int
  max : Int
  deriving DecidableEq, Repr

/-- Modelled from the spec: `CanCreate`, admission while the budget is not
exhausted. -/
def Resource.CanCreate (r : Resource) : Bool := decide (r.current < r.max)

/-- Modelled from the spec: `Increase`, one more request in flight. -/
def Resource.Increase (r : Resource) : Resource := { r with current := r.current + 1 }

/-- Modelled from the spec: `Decrease`, one request fewer in flight. -/
def Resource.Decrease (r : Resource) : Resource := { r with current := r.current - 1 }

/-- The state reached through `p.host`: `HostStats()`, `ClusterInfo().Stats()`
and `ClusterInfo().ResourceManager().Requests()`; `id` tells hosts apart. -/
structure Host where
  id : Nat
  HostStats : Stats
  ClusterStats : Stats
  Requests : Resource
  deriving DecidableEq, Repr

/-- A `types.StreamDecoder` handed in by the caller, known by a tag. -/
abbrev StreamDecoder := Nat

/-- Modelled from the spec: the codec client (`str.CodecClient`) is declared
outside these files. Its state is what was asked of it: the listeners wired in,
whether connection stats were set, the streams opened by `NewStream` (oldest
first) and whether `Close` was called. Listeners are addresses of active
clients. -/
structure CodecClient where
  connectionCallbacks : List Nat
  codecClientCallbacks : Option Nat
  codecConnectionCallbacks : Option Nat
  connectionStats : Bool
  streams : List (String × StreamDecoder)
  closed : Bool
  deriving DecidableEq, Repr

/-- The stream encoder that `codecClient.NewStream` returns: it names the
client it was opened on and the stream id and decoder it was opened with. -/
structure StreamEncoder where
  client : Nat
  streamId : String
  decoder : StreamDecoder
  deriving DecidableEq, Repr

/-- Record `activeClient` (connpool_fasthttp.go, lines 122-128). There is one
pool, so the back-reference `pool` carries no data; `host` is the host id. -/
structure activeClient where
  codecClient : CodecClient
  host : Nat
  totalStream : Nat
  closeWithActiveReq : Bool
  deriving DecidableEq, Repr

/-- Record `connPool` (connpool_fasthttp.go, lines 12-16). `client` is a pointer
into the heap of active clients; `initClient` is the `sync.Once`, true once its
`Do` has run a function. -/
structure connPool where
  host : Host
  client : Option Nat
  initClient : Bool
  deriving DecidableEq, Repr

/-- The pool together with the heap of `activeClient` objects allocated so far
(the address of an object is its position). -/
structure World where
  p : connPool
  clients : List activeClient
  deriving DecidableEq, Repr

/-- The reasons of `types.PoolFailureReason`. -/
inductive PoolFailureReason where
  | Overflow
  | ConnectionFailure
  deriving DecidableEq, Repr

/-- A call received by the `types.PoolEventListener` passed to `NewStream`.
The last argument of `OnPoolFailure` is a host, nil being `none`. -/
inductive PoolEvent where
  | OnPoolFailure (streamId : String) (reason : PoolFailureReason) (host : Option Nat)
  | OnPoolReady (streamId : String) (encoder : StreamEncoder) (host : Nat)
  deriving DecidableEq, Repr

/-- A `types.Cancellable`; the pool never builds one. -/
structure Cancellable where
  deriving DecidableEq, Repr

/-- Modelled from the spec: the connection events of `types.ConnectionEvent`
(declared outside these files). `LocalClose`, `RemoteClose`, `ConnectTimeout`
and `ConnectFailed` are the ones the pool names; `otherClose` and `other` stand
for the remaining events, close-class or not. -/
inductive ConnectionEvent where
  | LocalClose
  | RemoteClose
  | ConnectTimeout
  | ConnectFailed
  | otherClose (tag : Nat)
  | other (tag : Nat)
  deriving DecidableEq, Repr

/-- Modelled from the spec: `IsClose`, whether the event is close-class (local
close, remote close, or equivalent). -/
def ConnectionEvent.IsClose : ConnectionEvent → Bool
  | .LocalClose => true
  | .RemoteClose => true
  | .otherClose _ => true
  | _ => false

/-- Modelled from the spec: the reasons of `types.StreamResetReason` (declared
outside these files); `other` stands for the reasons the pool does not name. -/
inductive StreamResetReason where
  | StreamConnectionTermination
  | StreamConnectionFailed
  | StreamLocalReset
  | StreamRemoteReset
  | other (tag : Nat)
  deriving DecidableEq, Repr

/-- Function `NewConnPool` (connpool_fasthttp.go, lines 18-22), with an empty
heap of clients. -/
def NewConnPool (host : Host) : World :=
  { p := { host := host, client := none, initClient := false }, clients := [] }

/-- Function `newActiveClient` (connpool_fasthttp.go, lines 130-161): allocates
the client, builds its codec client with the client wired in as listener, and
counts the connection at host and cluster scope. Returns the new address. -/
def newActiveClient (w : World) : World × Nat :=
  let ac := w.clients.length
  let codecClient : CodecClient :=
    { connectionCallbacks := [ac], codecClientCallbacks := some ac
      codecConnectionCallbacks := some ac, connectionStats := true
      streams := [], closed := false }
  let hs := w.p.host.HostStats
  let cs := w.p.host.ClusterStats
  let host : Host :=
    { w.p.host with
      HostStats :=
        { hs with
          UpstreamConnectionTotal := hs.UpstreamConnectionTotal + 1
          UpstreamConnectionActive := hs.UpstreamConnectionActive + 1
          UpstreamConnectionTotalHttp1 := hs.UpstreamConnectionTotalHttp1 + 1 }
      ClusterStats :=
        { cs with
          UpstreamConnectionTotal := cs.UpstreamConnectionTotal + 1
          UpstreamConnectionActive := cs.UpstreamConnectionActive + 1
          UpstreamConnectionTotalHttp1 := cs.UpstreamConnectionTotalHttp1 + 1 } }
  ({ p := { w.p with host := host }
     clients := w.clients ++
       [{ codecClient := codecClient, host := w.p.host.id, totalStream := 0
          closeWithActiveReq := false }] }, ac)

/-- The first statement of `NewStream` (connpool_fasthttp.go, lines 34-38):
when `p.client` is nil, `p.initClient.Do` runs its function unless the
`sync.Once` has already run one. -/
def connPool.NewStream.init (w : World) : World :=
  match w.p.client with
  | some _ => w
  | none =>
    if w.p.initClient then w
    else
      let r := newActiveClient w
      { r.1 with p := { r.1.p with client := some r.2, initClient := true } }

/-- What a call of `NewStream` leaves behind: the new state, the calls made on
the listener `cb` in order, and the returned `types.Cancellable` (nil is
`none`). -/
structure NewStreamResult where
  world : World
  calls : List PoolEvent
  ret : Option Cancellable
  deriving DecidableEq, Repr

/-- Method `codecClient.NewStream` on the client at address `c`: the stream is
recorded on that client's codec; a nil or dangling `c` panics. -/
def World.openStream (w : World) (c : Option Nat) (streamId : String)
    (responseDecoder : StreamDecoder) : Except Panic (World × StreamEncoder) :=
  match c with
  | none => .error .nilPointerDereference
  | some a =>
    match w.clients[a]? with
    | none => .error .nilPointerDereference
    | some ac =>
      let ac1 : activeClient :=
        { ac with codecClient :=
            { ac.codecClient with
              streams := ac.codecClient.streams ++ [(streamId, responseDecoder)] } }
      .ok ({ w with clients := w.clients.set a ac1 },
           { client := a, streamId := streamId, decoder := responseDecoder })

/-- Method `connPool.NewStream` (connpool_fasthttp.go, lines 31-56). -/
def connPool.NewStream (w : World) (streamId : String) (responseDecoder : StreamDecoder) :
    Except Panic NewStreamResult :=
  let w1 := connPool.NewStream.init w
  let hs := w1.p.host.HostStats
  let cs := w1.p.host.ClusterStats
  if !w1.p.host.Requests.CanCreate then
    let host : Host :=
      { w1.p.host with
        HostStats :=
          { hs with UpstreamRequestPendingOverflow := hs.UpstreamRequestPendingOverflow + 1 }
        ClusterStats :=
          { cs with UpstreamRequestPendingOverflow := cs.UpstreamRequestPendingOverflow + 1 } }
    .ok { world := { w1 with p := { w1.p with host := host } }
          calls := [.OnPoolFailure streamId .Overflow none]
          ret := none }
  else
    let host : Host :=
      { w1.p.host with
        HostStats :=
          { hs with
            UpstreamRequestTotal := hs.UpstreamRequestTotal + 1
            UpstreamRequestActive := hs.UpstreamRequestActive + 1 }
        ClusterStats :=
          { cs with
            UpstreamRequestTotal := cs.UpstreamRequestTotal + 1
            UpstreamRequestActive := cs.UpstreamRequestActive + 1 }
        Requests := w1.p.host.Requests.Increase }
    let w2 : World := { w1 with p := { w1.p with host := host } }
    match w2.openStream w2.p.client streamId responseDecoder with
    | .error e => .error e
    | .ok (w3, streamEncoder) =>
      .ok { world := w3
            calls := [.OnPoolReady streamId streamEncoder w3.p.host.id]
            ret := none }

/-- Method `connPool.DrainConnections` (connpool_fasthttp.go, line 28). -/
def connPool.DrainConnections (w : World) : World := w

/-- Method `connPool.Close` (connpool_fasthttp.go, lines 58-60). -/
def connPool.Close (w : World) : World := { w with p := { w.p with client := none } }

/-- Method `connPool.onConnectionEvent` (connpool_fasthttp.go, lines 62-86);
`client` is the address of the client that delivers the event, and a dangling
address panics where the client is read. -/
def connPool.onConnectionEvent (w : World) (client : Nat) (event : ConnectionEvent) :
    Except Panic World :=
  let hs := w.p.host.HostStats
  let cs := w.p.host.ClusterStats
  if event.IsClose then
    match w.clients[client]? with
    | none => .error .nilPointerDereference
    | some ac =>
      let host : Host :=
        if ac.closeWithActiveReq then
          if event = .LocalClose then
            { w.p.host with
              HostStats :=
                { hs with UpstreamConnectionLocalCloseWithActiveRequest :=
                    hs.UpstreamConnectionLocalCloseWithActiveRequest + 1 }
              ClusterStats :=
                { cs with UpstreamConnectionLocalCloseWithActiveRequest :=
                    cs.UpstreamConnectionLocalCloseWithActiveRequest + 1 } }
          else if event = .RemoteClose then
            { w.p.host with
              HostStats :=
                { hs with UpstreamConnectionRemoteCloseWithActiveRequest :=
                    hs.UpstreamConnectionRemoteCloseWithActiveRequest + 1 }
              ClusterStats :=
                { cs with UpstreamConnectionRemoteCloseWithActiveRequest :=
                    cs.UpstreamConnectionRemoteCloseWithActiveRequest + 1 } }
          else w.p.host
        else w.p.host
      let cl : Option Nat := if w.p.client = some client then none else w.p.client
      .ok { w with p := { w.p with host := host, client := cl } }
  else if event = .ConnectTimeout then
    match w.clients[client]? with
    | none => .error .nilPointerDereference
    | some ac =>
      let host : Host :=
        { w.p.host with
          HostStats := { hs with UpstreamRequestTimeout := hs.UpstreamRequestTimeout + 1 }
          ClusterStats := { cs with UpstreamRequestTimeout := cs.UpstreamRequestTimeout + 1 } }
      .ok { p := { w.p with host := host }
            clients := w.clients.set client
              { ac with codecClient := { ac.codecClient with closed := true } } }
  else if event = .ConnectFailed then
    let host : Host :=
      { w.p.host with
        HostStats := { hs with UpstreamConnectionConFail := hs.UpstreamConnectionConFail + 1 }
        ClusterStats := { cs with UpstreamConnectionConFail := cs.UpstreamConnectionConFail + 1 } }
    .ok { w with p := { w.p with host := host } }
  else .ok w

/-- Method `connPool.onStreamDestroy` (connpool_fasthttp.go, lines 88-92). -/
def connPool.onStreamDestroy (w : World) (_client : Nat) : World :=
  let hs := w.p.host.HostStats
  let cs := w.p.host.ClusterStats
  let host : Host :=
    { w.p.host with
      HostStats := { hs with UpstreamRequestActive := hs.UpstreamRequestActive - 1 }
      ClusterStats := { cs with UpstreamRequestActive := cs.UpstreamRequestActive - 1 }
      Requests := w.p.host.Requests.Decrease }
  { w with p := { w.p with host := host } }

/-- Method `connPool.onStreamReset` (connpool_fasthttp.go, lines 94-106);
`client` is the address of the client whose stream was reset. -/
def connPool.onStreamReset (w : World) (client : Nat) (reason : StreamResetReason) :
    Except Panic World :=
  let hs := w.p.host.HostStats
  let cs := w.p.host.ClusterStats
  if reason = .StreamConnectionTermination ∨ reason = .StreamConnectionFailed then
    match w.clients[client]? with
    | none => .error .nilPointerDereference
    | some ac =>
      let host : Host :=
        { w.p.host with
          HostStats :=
            { hs with UpstreamRequestFailureEject := hs.UpstreamRequestFailureEject + 1 }
          ClusterStats :=
            { cs with UpstreamRequestFailureEject := cs.UpstreamRequestFailureEject + 1 } }
      .ok { p := { w.p with host := host }
            clients := w.clients.set client { ac with closeWithActiveReq := true } }
  else if reason = .StreamLocalReset then
    let host : Host :=
      { w.p.host with
        HostStats := { hs with UpstreamRequestLocalReset := hs.UpstreamRequestLocalReset + 1 }
        ClusterStats := { cs with UpstreamRequestLocalReset := cs.UpstreamRequestLocalReset + 1 } }
    .ok { w with p := { w.p with host := host } }
  else if reason = .StreamRemoteReset then
    let host : Host :=
      { w.p.host with
        HostStats :=
          { hs with UpstreamRequestRemoteReset := hs.UpstreamRequestRemoteReset + 1 }
        ClusterStats :=
          { cs with UpstreamRequestRemoteReset := cs.UpstreamRequestRemoteReset + 1 } }
    .ok { w with p := { w.p with host := host } }
  else .ok w

/-- Method `connPool.onGoAway` (connpool_fasthttp.go, lines 108-117). -/
def connPool.onGoAway (w : World) (_client : Nat) : World :=
  let hs := w.p.host.HostStats
  let cs := w.p.host.ClusterStats
  let host : Host :=
    { w.p.host with
      HostStats :=
        { hs with UpstreamConnectionCloseNotify := hs.UpstreamConnectionCloseNotify + 1 }
      ClusterStats :=
        { cs with UpstreamConnectionCloseNotify := cs.UpstreamConnectionCloseNotify + 1 } }
  { w with p := { w.p with host := host } }

/-! ## Specification-side definitions -/

/-- Follows the words of the specification: the request's service identifier is
the value under `"Service"` if that key is present, otherwise the value under
`"service"` if present; a nil map has neither. -/
def serviceIdentifier (h : Headers) : Option String :=
  match h with
  | none => none
  | some m =>
    match m "Service" with
    | some v => some v
    | none => m "service"

/-- Follows the words of the specification: the policy of a route rule, copied
field by field from its retry policy when there is one, else the zero policy. -/
def rulePolicy (r : BasicServiceRoute) : routerPolicy :=
  match r.RetryPolicy with
  | some rp =>
    { retryOn := rp.RetryOn, retryTimeout := rp.RetryTimeout, numRetries := rp.NumRetries }
  | none => { retryOn := false, retryTimeout := 0, numRetries := 0 }

/-- A call on the route table made by the control plane. -/
inductive RouterOp where
  | add (routerName : String)
  | del (routerName : String)
  deriving DecidableEq, Repr

/-- A sequence of `AddRouter` and `DelRouter` calls, in order; the first call
that panics ends the run. -/
def runOps (GlobalTimeout : Duration) :
    PolicyHeap × Routers → List RouterOp → Except Panic (PolicyHeap × Routers)
  | s, [] => .ok s
  | s, .add n :: rest =>
    match Routers.AddRouter GlobalTimeout s.1 s.2 n with
    | .error e => .error e
    | .ok s1 => runOps GlobalTimeout s1 rest
  | s, .del n :: rest =>
    match s.2.DelRouter n with
    | .error e => .error e
    | .ok rc1 => runOps GlobalTimeout (s.1, rc1) rest

/-- The heap and table in memory once a call of `AddRouter` is over: what the
call returned or, when it panicked, what was there before. The only panic is
at `rc.rMutex.Lock()` (router.go, line 40), the first statement, before
anything is written. -/
def Routers.afterAddRouter (GlobalTimeout : Duration) (s : PolicyHeap × Routers)
    (routerName : String) : PolicyHeap × Routers :=
  match Routers.AddRouter GlobalTimeout s.1 s.2 routerName with
  | .ok s1 => s1
  | .error _ => s

/-- The table in memory once a call of `DelRouter` is over: what the call
returned or, when it panicked, what was there before. The only panic is at
`rc.rMutex.Lock()` (router.go, line 76), the first statement, before anything
is written. -/
def Routers.afterDelRouter (rc : Routers) (routerName : String) : Routers :=
  match rc.DelRouter routerName with
  | .ok rc1 => rc1
  | .error _ => rc

/-- The heap and table in memory after a sequence of `AddRouter` and
`DelRouter` calls, each applied to what the call before it left. -/
def applyOps (GlobalTimeout : Duration) :
    PolicyHeap × Routers → List RouterOp → PolicyHeap × Routers
  | s, [] => s
  | s, .add n :: rest => applyOps GlobalTimeout (Routers.afterAddRouter GlobalTimeout s n) rest
  | s, .del n :: rest => applyOps GlobalTimeout (s.1, s.2.afterDelRouter n) rest

/-- Whether the entry is a `DynamicRouter`. -/
def RouteBase.isDynamic : RouteBase → Bool
  | .static _ => false
  | .dynamic _ => true

/-- A sequence of `NewStream` calls, each with its stream id and decoder, in
order; the first call that panics ends the run. -/
def runNewStreams : World → List (String × StreamDecoder) → Except Panic World
  | w, [] => .ok w
  | w, (streamId, responseDecoder) :: rest =>
    match connPool.NewStream w streamId responseDecoder with
    | .error e => .error e
    | .ok r => runNewStreams r.world rest

/-- The connection counters that `newActiveClient` raises: `UpstreamConnectionTotal`,
`UpstreamConnectionActive` and `UpstreamConnectionTotalHttp1`, at host scope and
then at cluster scope. -/
def World.connectionCounters (w : World) : List Counter :=
  [w.p.host.HostStats.UpstreamConnectionTotal, w.p.host.HostStats.UpstreamConnectionActive,
    w.p.host.HostStats.UpstreamConnectionTotalHttp1,
    w.p.host.ClusterStats.UpstreamConnectionTotal,
    w.p.host.ClusterStats.UpstreamConnectionActive,
    w.p.host.ClusterStats.UpstreamConnectionTotalHttp1]

/-- The counters of an admission: the resource manager's in-flight counter and
`UpstreamRequestActive` at host scope and at cluster scope. -/
def World.admissionCounters (w : World) : Int × Counter × Counter :=
  (w.p.host.Requests.current, w.p.host.HostStats.UpstreamRequestActive,
    w.p.host.ClusterStats.UpstreamRequestActive)

/-! ## Sample states -/

/-- Stats record with every counter at zero. -/
def Stats.zero : Stats :=
  { UpstreamConnectionTotal := 0, UpstreamConnectionActive := 0
    UpstreamConnectionTotalHttp1 := 0, UpstreamConnectionConFail := 0
    UpstreamConnectionLocalCloseWithActiveRequest := 0
    UpstreamConnectionRemoteCloseWithActiveRequest := 0
    UpstreamConnectionCloseNotify := 0, UpstreamRequestTotal := 0
    UpstreamRequestActive := 0, UpstreamRequestPendingOverflow := 0
    UpstreamRequestTimeout := 0, UpstreamRequestFailureEject := 0
    UpstreamRequestLocalReset := 0, UpstreamRequestRemoteReset := 0 }

/-- Host number 1 with fresh stats and a budget of `max` requests in flight. -/
def sampleHost (max : Int) : Host :=
  { id := 1, HostStats := Stats.zero, ClusterStats := Stats.zero
    Requests := { current := 0, max := max } }

/-- Active client at address `a` as `newActiveClient` leaves it. -/
def sampleClient (a : Nat) : activeClient :=
  { codecClient :=
      { connectionCallbacks := [a], codecClientCallbacks := some a
        codecConnectionCallbacks := some a, connectionStats := true
        streams := [], closed := false }
    host := 1, totalStream := 0, closeWithActiveReq := false }

/-- Pool on `sampleHost max` whose client, at address 0, is live. -/
def sampleLiveWorld (max : Int) : World :=
  { p := { host := sampleHost max, client := some 0, initClient := true }
    clients := [sampleClient 0] }

/-- Proxy configuration with the one rule `A` and no dynamic rule. -/
def sampleProxy : Proxy :=
  { Routes :=
      [{ Name := "A", Service := "svc-a", Cluster := "cluster-a", GlobalTimeout := 5
         RetryPolicy := none }]
    SupportDynamicRoute := false }

/-- The static entry that `NewRouters` builds from the rule of `sampleProxy`
on an empty policy heap. -/
def sampleEntry : RouteBase :=
  .static { name := "A", service := "svc-a", cluster := "cluster-a", globalTimeout := 5
            policy := some 0 }

/-- Headers holding the one key `key` with value `value`. -/
def sampleHeaders (key value : String) : Headers :=
  some fun k => if k = key then some value else none

/-- Headers holding `"Service"` with value `a` and `"service"` with value `b`. -/
def sampleHeadersBoth (a b : String) : Headers :=
  some fun k => if k = "Service" then some a else if k = "service" then some b else none

/-- Proxy configuration without rules and with the dynamic rule enabled. -/
def sampleDynamicProxy : Proxy := { Routes := [], SupportDynamicRoute := true }

/-- Proxy configuration with the one rule `A`, whose cluster is the empty
string, and no dynamic rule. -/
def sampleEmptyClusterProxy : Proxy :=
  { Routes :=
      [{ Name := "A", Service := "svc-a", Cluster := "", GlobalTimeout := 5
         RetryPolicy := none }]
    SupportDynamicRoute := false }

/-! ## Routing: matching -/

theorem basicRouter_Match_fst (srr : basicRouter) (h : Headers) :
    (srr.Match h).1 = none ∨ (srr.Match h).1 = some (.static srr) := by
  unfold basicRouter.Match
  cases h with
  | none => simp
  | some m =>
    simp only
    cases m "Service" with
    | some v => simp only; split <;> simp
    | none =>
      simp only
      cases m "service" with
      | some v => simp only; split <;> simp
      | none => simp

theorem DynamicRouter_Match_fst (drr : DynamicRouter) (h : Headers) :
    (drr.Match h).1 = none ∨ (drr.Match h).1 = some (.dynamic drr) := by
  unfold DynamicRouter.Match
  cases h with
  | none => simp
  | some m =>
    simp only
    cases m "Service" with
    | some v => simp
    | none =>
      simp only
      cases m "service" with
      | some v => simp
      | none => simp

/-- An entry's `Match` yields nil or the entry itself. -/
theorem RouteBase_Match_fst (e : RouteBase) (h : Headers) :
    (e.Match h).1 = none ∨ (e.Match h).1 = some e := by
  cases e with
  | static srr => exact basicRouter_Match_fst srr h
  | dynamic drr => exact DynamicRouter_Match_fst drr h

theorem Route_loop_none (h : Headers) (l : List RouteBase)
    (hall : ∀ e ∈ l, (e.Match h).1 = none) : Routers.Route.loop h l = (none, "") := by
  induction l with
  | nil => rfl
  | cons r rest ih =>
    have hr : (r.Match h).1 = none := hall r (List.mem_cons_self _ _)
    have hrest : ∀ e ∈ rest, (e.Match h).1 = none :=
      fun e he => hall e (List.mem_cons_of_mem _ he)
    unfold Routers.Route.loop
    rcases hm : r.Match h with ⟨rule, key⟩
    rw [hm] at hr
    simp only at hr
    subst hr
    simpa using ih hrest

theorem Route_loop_first (h : Headers) (l : List RouteBase) (i : Nat) (e : RouteBase)
    (hi : l[i]? = some e)
    (hbefore : ∀ j e', j < i → l[j]? = some e' → (e'.Match h).1 = none)
    (hmatch : (e.Match h).1 ≠ none) :
    Routers.Route.loop h l = (some e, (e.Match h).2) := by
  induction l generalizing i with
  | nil => simp at hi
  | cons r rest ih =>
    cases i with
    | zero =>
      simp only [List.getElem?_cons_zero, Option.some.injEq] at hi
      subst hi
      unfold Routers.Route.loop
      rcases hm : r.Match h with ⟨rule, key⟩
      have hself := RouteBase_Match_fst r h
      rw [hm] at hself hmatch
      simp only at hself hmatch
      rcases hself with h0 | h1
      · exact absurd h0 hmatch
      · subst h1; rfl
    | succ k =>
      simp only [List.getElem?_cons_succ] at hi
      have hr : (r.Match h).1 = none :=
        hbefore 0 r (Nat.succ_pos k) (by simp)
      have hrest : ∀ j e', j < k → rest[j]? = some e' → (e'.Match h).1 = none :=
        fun j e' hj he' => hbefore (j + 1) e' (Nat.succ_lt_succ hj) (by simpa using he')
      unfold Routers.Route.loop
      rcases hm : r.Match h with ⟨rule, key⟩
      rw [hm] at hr
      simp only at hr
      subst hr
      simpa using ih k hi hrest

/-- C1: `Routers.Route` returns the entry at the least index whose `Match`
yields a route, with the key of that same `Match` call; when no entry's `Match`
yields a route it returns nil and the empty key, whatever keys the `Match`
calls returned. -/
theorem Route_first_match (rc : Routers) (h : Headers) :
    (∀ (i : Nat) (e : RouteBase), rc.routers[i]? = some e →
        (∀ j e', j < i → rc.routers[j]? = some e' → (e'.Match h).1 = none) →
        (e.Match h).1 ≠ none →
        e.Match h = (some e, (e.Match h).2) ∧ rc.Route h = (some e, (e.Match h).2)) ∧
    ((∀ e ∈ rc.routers, (e.Match h).1 = none) → rc.Route h = (none, "")) := by
  refine ⟨?_, ?_⟩
  · intro i e hi hbefore hmatch
    refine ⟨?_, Route_loop_first h rc.routers i e hi hbefore hmatch⟩
    rcases RouteBase_Match_fst e h with h0 | h1
    · exact absurd h0 hmatch
    · exact Prod.ext h1 rfl
  · intro hall
    exact Route_loop_none h rc.routers hall

/-- C2: a `basicRouter` with selector `S` returns itself iff the service
identifier (under `"Service"`, else under `"service"`) exists and equals `S`,
and then the key is that identifier; an identifier that differs from `S` gives
`(nil, id)`; no identifier, or a nil map, gives `(nil, "")`. -/
theorem basicRouter_Match_selector (srr : basicRouter) (h : Headers) :
    ((srr.Match h).1 = some (.static srr) ↔ serviceIdentifier h = some srr.service) ∧
    (serviceIdentifier h = some srr.service →
      srr.Match h = (some (.static srr), srr.service)) ∧
    (∀ id, serviceIdentifier h = some id → id ≠ srr.service → srr.Match h = (none, id)) ∧
    (serviceIdentifier h = none → srr.Match h = (none, "")) := by
  unfold basicRouter.Match serviceIdentifier
  cases h with
  | none => simp
  | some m =>
    simp only
    cases m "Service" with
    | some v =>
      simp only
      by_cases hv : srr.service = v
      · subst hv; simp
      · have hv' : ¬ v = srr.service := fun h' => hv h'.symm
        simp [hv, hv']
    | none =>
      simp only
      cases m "service" with
      | some v =>
        simp only
        by_cases hv : srr.service = v
        · subst hv; simp
        · have hv' : ¬ v = srr.service := fun h' => hv h'.symm
          simp [hv, hv']
      | none => simp

/-! ## Connection pool: admission -/

/-- The lazy initialisation leaves the host's resource and request counters
alone and only ever adds one client without streams to the heap. -/
theorem NewStream_init_frame (w : World) :
    (connPool.NewStream.init w).p.host.Requests = w.p.host.Requests ∧
    (connPool.NewStream.init w).p.host.id = w.p.host.id ∧
    (connPool.NewStream.init w).p.host.HostStats.UpstreamRequestTotal =
      w.p.host.HostStats.UpstreamRequestTotal ∧
    (connPool.NewStream.init w).p.host.HostStats.UpstreamRequestActive =
      w.p.host.HostStats.UpstreamRequestActive ∧
    (connPool.NewStream.init w).p.host.HostStats.UpstreamRequestPendingOverflow =
      w.p.host.HostStats.UpstreamRequestPendingOverflow ∧
    (connPool.NewStream.init w).p.host.ClusterStats.UpstreamRequestTotal =
      w.p.host.ClusterStats.UpstreamRequestTotal ∧
    (connPool.NewStream.init w).p.host.ClusterStats.UpstreamRequestActive =
      w.p.host.ClusterStats.UpstreamRequestActive ∧
    (connPool.NewStream.init w).p.host.ClusterStats.UpstreamRequestPendingOverflow =
      w.p.host.ClusterStats.UpstreamRequestPendingOverflow ∧
    ((connPool.NewStream.init w).clients = w.clients ∨
      ∃ ac, (connPool.NewStream.init w).clients = w.clients ++ [ac] ∧
        ac.codecClient.streams = []) := by
  unfold connPool.NewStream.init
  cases w.p.client with
  | some c => simp
  | none =>
    by_cases hdone : w.p.initClient = true
    · simp [hdone]
    · simp [hdone, newActiveClient]

/-- With a client in place the lazy initialisation does nothing. -/
theorem NewStream_init_live (w : World) (c : Nat) (hlive : w.p.client = some c) :
    connPool.NewStream.init w = w := by
  unfold connPool.NewStream.init
  rw [hlive]

/-- C3: when `CanCreate` reports false, `NewStream` calls
`OnPoolFailure(streamId, Overflow, nil)` once and nothing else on the listener,
opens no stream on any codec client, leaves the in-flight counter and the
request-total and request-active counters as they were, adds 1 to
`UpstreamRequestPendingOverflow` at host and at cluster scope, and returns nil. -/
theorem NewStream_overflow (w : World) (streamId : String)
    (responseDecoder : StreamDecoder) (hcan : w.p.host.Requests.CanCreate = false) :
    ∃ r, connPool.NewStream w streamId responseDecoder = .ok r ∧
      r.calls = [.OnPoolFailure streamId .Overflow none] ∧
      r.ret = none ∧
      (r.world.clients = w.clients ∨
        ∃ ac, r.world.clients = w.clients ++ [ac] ∧ ac.codecClient.streams = []) ∧
      r.world.p.host.Requests = w.p.host.Requests ∧
      r.world.p.host.HostStats.UpstreamRequestTotal =
        w.p.host.HostStats.UpstreamRequestTotal ∧
      r.world.p.host.HostStats.UpstreamRequestActive =
        w.p.host.HostStats.UpstreamRequestActive ∧
      r.world.p.host.ClusterStats.UpstreamRequestTotal =
        w.p.host.ClusterStats.UpstreamRequestTotal ∧
      r.world.p.host.ClusterStats.UpstreamRequestActive =
        w.p.host.ClusterStats.UpstreamRequestActive ∧
      r.world.p.host.HostStats.UpstreamRequestPendingOverflow =
        w.p.host.HostStats.UpstreamRequestPendingOverflow + 1 ∧
      r.world.p.host.ClusterStats.UpstreamRequestPendingOverflow =
        w.p.host.ClusterStats.UpstreamRequestPendingOverflow + 1 := by
  obtain ⟨hreq, -, hht, hha, hho, hct, hca, hco, hcl⟩ := NewStream_init_frame w
  have hcan1 : (connPool.NewStream.init w).p.host.Requests.CanCreate = false := by
    rw [hreq]; exact hcan
  unfold connPool.NewStream
  simp only [hcan1, Bool.not_false, if_true]
  exact ⟨_, rfl, rfl, rfl, hcl, hreq, hht, hha, hct, hca, by simp [hho], by simp [hco]⟩

/-- Witness of C3: a fresh pool whose host admits no request in flight. -/
theorem NewStream_overflow_witness :
    (sampleHost 0).Requests.CanCreate = false ∧
    ∃ r, connPool.NewStream (NewConnPool (sampleHost 0)) "s1" 7 = .ok r ∧
      r.calls = [.OnPoolFailure "s1" .Overflow none] ∧
      r.ret = none ∧
      (r.world.clients = (NewConnPool (sampleHost 0)).clients ∨
        ∃ ac, r.world.clients = (NewConnPool (sampleHost 0)).clients ++ [ac] ∧
          ac.codecClient.streams = []) ∧
      r.world.p.host.Requests = (NewConnPool (sampleHost 0)).p.host.Requests ∧
      r.world.p.host.HostStats.UpstreamRequestTotal =
        (NewConnPool (sampleHost 0)).p.host.HostStats.UpstreamRequestTotal ∧
      r.world.p.host.HostStats.UpstreamRequestActive =
        (NewConnPool (sampleHost 0)).p.host.HostStats.UpstreamRequestActive ∧
      r.world.p.host.ClusterStats.UpstreamRequestTotal =
        (NewConnPool (sampleHost 0)).p.host.ClusterStats.UpstreamRequestTotal ∧
      r.world.p.host.ClusterStats.UpstreamRequestActive =
        (NewConnPool (sampleHost 0)).p.host.ClusterStats.UpstreamRequestActive ∧
      r.world.p.host.HostStats.UpstreamRequestPendingOverflow =
        (NewConnPool (sampleHost 0)).p.host.HostStats.UpstreamRequestPendingOverflow + 1 ∧
      r.world.p.host.ClusterStats.UpstreamRequestPendingOverflow =
        (NewConnPool (sampleHost 0)).p.host.ClusterStats.UpstreamRequestPendingOverflow + 1 :=
  ⟨by decide, NewStream_overflow (NewConnPool (sampleHost 0)) "s1" 7 (by decide)⟩

/-- C4: with a live client and `CanCreate` reporting true, `NewStream` adds 1
to `UpstreamRequestTotal` and `UpstreamRequestActive` at host and at cluster
scope and 1 to the in-flight counter, opens one stream with the given id and
decoder on the pool's client and on no other, calls
`OnPoolReady(streamId, thatEncoder, p.host)` once and nothing else on the
listener, leaves the pending-overflow counters alone, and returns nil. -/
theorem NewStream_admitted (w : World) (streamId : String)
    (responseDecoder : StreamDecoder) (c : Nat) (ac : activeClient)
    (hlive : w.p.client = some c) (hac : w.clients[c]? = some ac)
    (hcan : w.p.host.Requests.CanCreate = true) :
    ∃ r, connPool.NewStream w streamId responseDecoder = .ok r ∧
      r.world.p.host.HostStats.UpstreamRequestTotal =
        w.p.host.HostStats.UpstreamRequestTotal + 1 ∧
      r.world.p.host.HostStats.UpstreamRequestActive =
        w.p.host.HostStats.UpstreamRequestActive + 1 ∧
      r.world.p.host.ClusterStats.UpstreamRequestTotal =
        w.p.host.ClusterStats.UpstreamRequestTotal + 1 ∧
      r.world.p.host.ClusterStats.UpstreamRequestActive =
        w.p.host.ClusterStats.UpstreamRequestActive + 1 ∧
      r.world.p.host.Requests.current = w.p.host.Requests.current + 1 ∧
      r.world.p.host.Requests.max = w.p.host.Requests.max ∧
      r.world.clients = w.clients.set c
        { ac with codecClient :=
            { ac.codecClient with
              streams := ac.codecClient.streams ++ [(streamId, responseDecoder)] } } ∧
      r.calls =
        [.OnPoolReady streamId
          { client := c, streamId := streamId, decoder := responseDecoder } w.p.host.id] ∧
      r.world.p.host.HostStats.UpstreamRequestPendingOverflow =
        w.p.host.HostStats.UpstreamRequestPendingOverflow ∧
      r.world.p.host.ClusterStats.UpstreamRequestPendingOverflow =
        w.p.host.ClusterStats.UpstreamRequestPendingOverflow ∧
      r.world.p.client = some c ∧
      r.ret = none := by
  unfold connPool.NewStream
  rw [NewStream_init_live w c hlive]
  simp [hcan, World.openStream, hlive, hac, Resource.Increase]

/-- Witness of C4: the live sample pool with room for three requests. -/
theorem NewStream_admitted_witness :
    ∃ r, connPool.NewStream (sampleLiveWorld 3) "s1" 7 = .ok r ∧
      r.world.p.host.HostStats.UpstreamRequestTotal = 1 ∧
      r.world.p.host.Requests.current = 1 ∧
      r.calls = [.OnPoolReady "s1" { client := 0, streamId := "s1", decoder := 7 } 1] :=
  match NewStream_admitted (sampleLiveWorld 3) "s1" 7 0 (sampleClient 0)
      rfl rfl (by decide) with
  | ⟨r, hr, ht, _, _, _, hcur, _, _, hcalls, _⟩ => ⟨r, hr, ht, hcur, hcalls⟩

/-- Opening a stream touches the heap of clients only. -/
theorem openStream_p (w w' : World) (c : Option Nat) (streamId : String)
    (responseDecoder : StreamDecoder) (enc : StreamEncoder)
    (h : w.openStream c streamId responseDecoder = .ok (w', enc)) : w'.p = w.p := by
  unfold World.openStream at h
  cases c with
  | none => simp at h
  | some a =>
    simp only at h
    cases hc : w.clients[a]? with
    | none => simp [hc] at h
    | some ac =>
      simp only [hc, Except.ok.injEq, Prod.mk.injEq] at h
      rw [← h.1]

/-- C5: when `NewStream` is admitted (its one listener call is `OnPoolReady`),
one `onStreamDestroy` on the state it leaves brings the in-flight counter and
the host-scope and cluster-scope `UpstreamRequestActive` back to their values
before the `NewStream`, while `UpstreamRequestTotal` stays one above. -/
theorem onStreamDestroy_undoes_admission (s : World) (streamId : String)
    (responseDecoder : StreamDecoder) (r : NewStreamResult) (enc : StreamEncoder) (host : Nat)
    (client : Nat)
    (hret : connPool.NewStream s streamId responseDecoder = .ok r)
    (hready : r.calls = [.OnPoolReady streamId enc host]) :
    (connPool.onStreamDestroy r.world client).p.host.Requests = s.p.host.Requests ∧
    (connPool.onStreamDestroy r.world client).p.host.HostStats.UpstreamRequestActive =
      s.p.host.HostStats.UpstreamRequestActive ∧
    (connPool.onStreamDestroy r.world client).p.host.ClusterStats.UpstreamRequestActive =
      s.p.host.ClusterStats.UpstreamRequestActive ∧
    (connPool.onStreamDestroy r.world client).p.host.HostStats.UpstreamRequestTotal =
      s.p.host.HostStats.UpstreamRequestTotal + 1 ∧
    (connPool.onStreamDestroy r.world client).p.host.ClusterStats.UpstreamRequestTotal =
      s.p.host.ClusterStats.UpstreamRequestTotal + 1 := by
  obtain ⟨hreq, -, hht, hha, -, hct, hca, -, -⟩ := NewStream_init_frame s
  unfold connPool.NewStream at hret
  by_cases hcan : (connPool.NewStream.init s).p.host.Requests.CanCreate = true
  · simp only [hcan, Bool.not_true, Bool.false_eq_true, if_false] at hret
    split at hret
    · simp at hret
    · rename_i w3 streamEncoder hopen
      have hp := openStream_p _ _ _ _ _ _ hopen
      simp only [Except.ok.injEq] at hret
      subst hret
      simp only [connPool.onStreamDestroy, hp, Resource.Increase, Resource.Decrease]
      refine ⟨?_, ?_, ?_, ?_, ?_⟩
      · rw [← hreq]
        cases (connPool.NewStream.init s).p.host.Requests
        simp
      · simp [hha]
      · simp [hca]
      · simp [hht]
      · simp [hct]
  · simp only [Bool.not_eq_true] at hcan
    simp only [hcan, Bool.not_false, if_true, Except.ok.injEq] at hret
    subst hret
    simp at hready

/-- Witness of C5: the first request of a fresh pool with room for two. -/
theorem onStreamDestroy_undoes_admission_witness :
    ∃ r, connPool.NewStream (NewConnPool (sampleHost 2)) "s1" 7 = .ok r ∧
      r.calls = [.OnPoolReady "s1" { client := 0, streamId := "s1", decoder := 7 } 1] ∧
      (connPool.onStreamDestroy r.world 0).p.host.Requests = (sampleHost 2).Requests ∧
      (connPool.onStreamDestroy r.world 0).p.host.HostStats.UpstreamRequestActive = 0 ∧
      (connPool.onStreamDestroy r.world 0).p.host.ClusterStats.UpstreamRequestActive = 0 ∧
      (connPool.onStreamDestroy r.world 0).p.host.HostStats.UpstreamRequestTotal = 1 ∧
      (connPool.onStreamDestroy r.world 0).p.host.ClusterStats.UpstreamRequestTotal = 1 :=
  ⟨_, rfl, rfl,
    onStreamDestroy_undoes_admission (NewConnPool (sampleHost 2)) "s1" 7 _
      { client := 0, streamId := "s1", decoder := 7 } 1 0 rfl rfl⟩

/-! ## Connection pool: the client reference -/

/-- C6, at a failing input: a fresh pool with room for five requests admits
`"s1"` and thereby gets its client; after `Close`, and likewise after a
`RemoteClose` event from that client, the reference is nil, the `sync.Once` has
already run, and the next `NewStream` builds no client: it dereferences the nil
reference and panics. With no room left the call returns, the reference still
nil. -/
theorem NewStream_after_Close_no_client :
    ∃ r1, connPool.NewStream (NewConnPool (sampleHost 5)) "s1" 7 = .ok r1 ∧
      r1.world.p.client = some 0 ∧
      (connPool.Close r1.world).p.client = none ∧
      connPool.NewStream (connPool.Close r1.world) "s2" 8 = .error .nilPointerDereference ∧
      (∃ w2, connPool.onConnectionEvent r1.world 0 .RemoteClose = .ok w2 ∧
        w2.p.client = none ∧
        connPool.NewStream w2 "s2" 8 = .error .nilPointerDereference) ∧
      ∃ r0 r2, connPool.NewStream (NewConnPool (sampleHost 1)) "s1" 7 = .ok r0 ∧
        connPool.NewStream (connPool.Close r0.world) "s2" 8 = .ok r2 ∧
        r2.calls = [.OnPoolFailure "s2" .Overflow none] ∧
        r2.world.p.client = none :=
  ⟨_, rfl, rfl, rfl, rfl, ⟨_, rfl, rfl, rfl⟩, _, _, rfl, rfl, rfl, rfl⟩

/-- C7: after `onConnectionEvent(c, ev)` from an allocated client `c` the pool's
client reference is nil when `ev` is close-class and `c` is the pool's current
client, and otherwise what it was: an event from another client, a
`ConnectTimeout` and a `ConnectFailed` leave it as it was. -/
theorem onConnectionEvent_client (w : World) (c : Nat) (ev : ConnectionEvent)
    (ac : activeClient) (hac : w.clients[c]? = some ac) :
    ∃ w', connPool.onConnectionEvent w c ev = .ok w' ∧
      w'.p.client = (if ev.IsClose = true ∧ w.p.client = some c then none else w.p.client) ∧
      (w.p.client ≠ some c → w'.p.client = w.p.client) ∧
      (ev = .ConnectTimeout ∨ ev = .ConnectFailed → w'.p.client = w.p.client) := by
  unfold connPool.onConnectionEvent
  by_cases hclose : ev.IsClose = true
  · simp only [hclose, if_true, hac, true_and]
    refine ⟨_, rfl, rfl, ?_, ?_⟩
    · intro hne; simp [hne]
    · intro hev
      rcases hev with h | h <;> subst h <;> simp [ConnectionEvent.IsClose] at hclose
  · simp only [hclose, Bool.false_eq_true, if_false, false_and, hac]
    by_cases ht : ev = .ConnectTimeout
    · simp [ht]
    · by_cases hf : ev = .ConnectFailed
      · simp [hf]
      · simp [ht, hf]

/-- Witness of C7: a `LocalClose` from the current client of the live sample
pool. -/
theorem onConnectionEvent_client_witness :
    ∃ w', connPool.onConnectionEvent (sampleLiveWorld 3) 0 .LocalClose = .ok w' ∧
      w'.p.client = none :=
  match onConnectionEvent_client (sampleLiveWorld 3) 0 .LocalClose (sampleClient 0)
      rfl with
  | ⟨w', hw, hcl, _⟩ => ⟨w', hw, hcl⟩

/-! ## Routing: adding and removing entries -/

theorem AddRouter_hasName_iff (l : List RouteBase) (n : String) :
    Routers.AddRouter.hasName l n = true ↔ ∃ e ∈ l, e.GetRouterName = n := by
  induction l with
  | nil => simp [Routers.AddRouter.hasName]
  | cons r rest ih =>
    unfold Routers.AddRouter.hasName
    by_cases hr : r.GetRouterName = n
    · simp [hr]
    · simp [hr, ih]

/-- With its lock in place, `AddRouter(n)` on a table without an entry named
`n` appends one static entry with name, selector and cluster `n`; the entry
takes timeout and policy pointer from the first entry, allocating nothing, and
on an empty table takes `types.GlobalTimeout` and a fresh zero policy. -/
theorem AddRouter_locked_appends (g : Duration) (mem : PolicyHeap) (rc : Routers)
    (n : String) (m : RWMutex) (hlock : rc.rMutex = some m)
    (hnew : ∀ e ∈ rc.routers, e.GetRouterName ≠ n) :
    ∃ mem' br, Routers.AddRouter g mem rc n =
        .ok (mem', { rMutex := rc.rMutex, routers := rc.routers ++ [.static br] }) ∧
      br.name = n ∧ br.service = n ∧ br.cluster = n ∧
      (∀ first rest, rc.routers = first :: rest →
        br.globalTimeout = first.GlobalTimeout ∧ br.policy = first.Policy ∧ mem' = mem) ∧
      (rc.routers = [] →
        br.globalTimeout = g ∧ br.policy = some mem.length ∧
        mem' = mem ++ [{ retryOn := false, retryTimeout := 0, numRetries := 0 }]) := by
  have hno : Routers.AddRouter.hasName rc.routers n = false := by
    cases hh : Routers.AddRouter.hasName rc.routers n with
    | false => rfl
    | true =>
      obtain ⟨e, he, hen⟩ := (AddRouter_hasName_iff rc.routers n).1 hh
      exact absurd hen (hnew e he)
  unfold Routers.AddRouter
  simp only [hlock, hno, Bool.false_eq_true, if_false]
  cases hr : rc.routers with
  | nil => exact ⟨_, _, rfl, rfl, rfl, rfl, by simp, fun _ => ⟨rfl, rfl, rfl⟩⟩
  | cons first rest =>
    refine ⟨_, _, rfl, rfl, rfl, rfl, ?_, by simp⟩
    intro f r hfr
    simp only [List.cons.injEq] at hfr
    obtain ⟨hf, -⟩ := hfr
    subst hf
    exact ⟨rfl, rfl, rfl⟩

/-- With its lock in place, `AddRouter(n)` on a table that has an entry named
`n` returns with heap and table as they were. -/
theorem AddRouter_locked_existing (g : Duration) (mem : PolicyHeap) (rc : Routers)
    (n : String) (m : RWMutex) (hlock : rc.rMutex = some m)
    (hex : ∃ e ∈ rc.routers, e.GetRouterName = n) :
    Routers.AddRouter g mem rc n = .ok (mem, rc) := by
  have hyes := (AddRouter_hasName_iff rc.routers n).2 hex
  unfold Routers.AddRouter
  simp [hlock, hyes]

/-- With its lock in place, a second `AddRouter(n)` leaves what the first one
returned. -/
theorem AddRouter_locked_idempotent (g : Duration) (mem : PolicyHeap) (rc : Routers)
    (n : String) (m : RWMutex) (hlock : rc.rMutex = some m) :
    ∃ mem' rc', Routers.AddRouter g mem rc n = .ok (mem', rc') ∧
      Routers.AddRouter g mem' rc' n = .ok (mem', rc') := by
  by_cases hex : ∃ e ∈ rc.routers, e.GetRouterName = n
  · have h1 := AddRouter_locked_existing g mem rc n m hlock hex
    exact ⟨mem, rc, h1, h1⟩
  · have hnew : ∀ e ∈ rc.routers, e.GetRouterName ≠ n :=
      fun e he hen => hex ⟨e, he, hen⟩
    obtain ⟨mem', br, h1, hname, -⟩ :=
      AddRouter_locked_appends g mem rc n m hlock hnew
    refine ⟨mem', _, h1, ?_⟩
    exact AddRouter_locked_existing g mem'
      { rMutex := rc.rMutex, routers := rc.routers ++ [.static br] } n m hlock
      ⟨.static br, by simp, hname⟩

theorem DelRouter_loop_absent (all : List RouteBase) (n : String)
    (l : List RouteBase) (i : Nat) (habs : ∀ x ∈ l, x.GetRouterName ≠ n) :
    Routers.DelRouter.loop all n l i = all := by
  induction l generalizing i with
  | nil => rfl
  | cons r rest ih =>
    unfold Routers.DelRouter.loop
    have hr : r.GetRouterName ≠ n := habs r (List.mem_cons_self _ _)
    simp only [hr, if_false]
    exact ih (i + 1) (fun x hx => habs x (List.mem_cons_of_mem _ hx))

theorem DelRouter_loop_first (n : String) (seen mid post : List RouteBase)
    (e : RouteBase) (hmid : ∀ x ∈ mid, x.GetRouterName ≠ n) (he : e.GetRouterName = n) :
    Routers.DelRouter.loop (seen ++ mid ++ e :: post) n (mid ++ e :: post) seen.length =
      seen ++ mid ++ post := by
  induction mid generalizing seen with
  | nil =>
    unfold Routers.DelRouter.loop
    simp [he]
  | cons r rest ih =>
    have hr : r.GetRouterName ≠ n := hmid r (List.mem_cons_self _ _)
    have hrest : ∀ x ∈ rest, x.GetRouterName ≠ n :=
      fun x hx => hmid x (List.mem_cons_of_mem _ hx)
    have hstep := ih (seen ++ [r]) hrest
    simp only [List.append_assoc, List.singleton_append, List.length_append,
      List.length_singleton] at hstep
    simp only [List.cons_append, List.append_assoc]
    rw [Routers.DelRouter.loop]
    simp only [hr, if_false]
    exact hstep

/-- With its lock in place, `DelRouter(n)` removes the first entry named `n`
and keeps every other entry in order; with no entry named `n` the table is as
it was. -/
theorem DelRouter_locked_removes_first (rc : Routers) (n : String) (m : RWMutex)
    (hlock : rc.rMutex = some m) :
    (∀ pre e post, rc.routers = pre ++ e :: post →
        (∀ x ∈ pre, x.GetRouterName ≠ n) → e.GetRouterName = n →
        rc.DelRouter n = .ok { rMutex := rc.rMutex, routers := pre ++ post }) ∧
    ((∀ x ∈ rc.routers, x.GetRouterName ≠ n) → rc.DelRouter n = .ok rc) := by
  refine ⟨?_, ?_⟩
  · intro pre e post hsplit hpre he
    have h := DelRouter_loop_first n [] pre post e hpre he
    simp only [List.nil_append, List.length_nil] at h
    unfold Routers.DelRouter
    simp only [hlock, hsplit, h]
  · intro habs
    unfold Routers.DelRouter
    simp only [hlock, DelRouter_loop_absent rc.routers n rc.routers 0 habs]
    cases rc
    simp only at hlock
    simp only [hlock]

/-- C8, at a failing input: `NewRouters` on a proxy configuration without
rules returns the empty table with `rMutex` nil, and `AddRouter("a")` on that
table panics on the nil lock; no entry is appended. -/
theorem AddRouter_on_NewRouters_table_panics :
    ∃ mem rc,
      NewRouters 60000000000 [] (.proxy (some { Routes := [], SupportDynamicRoute := false })) =
        .ok (.routers mem rc) ∧
      rc = { rMutex := none, routers := [] } ∧
      (∀ e ∈ rc.routers, e.GetRouterName ≠ "a") ∧
      Routers.AddRouter 60000000000 mem rc "a" = .error .nilPointerDereference :=
  ⟨[], { rMutex := none, routers := [] }, rfl, rfl, fun e he => absurd he (List.not_mem_nil e), rfl⟩

/-- C9, at a failing input: `NewRouters` on `sampleProxy` returns the table
`[A]` with `rMutex` nil; `AddRouter("A")`, whose entry is already there, and
`AddRouter("B")` both panic on the nil lock, so no call returns the table. -/
theorem AddRouter_existing_on_NewRouters_table_panics :
    ∃ mem rc,
      NewRouters 60000000000 [] (.proxy (some sampleProxy)) = .ok (.routers mem rc) ∧
      rc = { rMutex := none, routers := [sampleEntry] } ∧
      sampleEntry.GetRouterName = "A" ∧
      Routers.AddRouter 60000000000 mem rc "A" = .error .nilPointerDereference ∧
      Routers.AddRouter 60000000000 mem rc "B" = .error .nilPointerDereference :=
  ⟨_, _, rfl, rfl, rfl, rfl, rfl⟩

/-- C10, at a failing input: `NewRouters` on `sampleProxy` returns the table
`[A]` with `rMutex` nil, and `DelRouter("A")` on it panics on the nil lock; the
entry named `A` is not removed. -/
theorem DelRouter_on_NewRouters_table_panics :
    ∃ mem rc,
      NewRouters 60000000000 [] (.proxy (some sampleProxy)) = .ok (.routers mem rc) ∧
      rc = { rMutex := none, routers := [sampleEntry] } ∧
      sampleEntry.GetRouterName = "A" ∧
      rc.DelRouter "A" = .error .nilPointerDereference :=
  ⟨_, _, rfl, rfl, rfl, rfl⟩

/-! ## Routing: construction -/

theorem NewRouters_loop_cons (mem : PolicyHeap) (r : BasicServiceRoute)
    (rest : List BasicServiceRoute) :
    NewRouters.loop mem (r :: rest) =
      ((NewRouters.loop (mem ++ [rulePolicy r]) rest).1,
        .static { name := r.Name, service := r.Service, cluster := r.Cluster
                  globalTimeout := r.GlobalTimeout, policy := some mem.length } ::
          (NewRouters.loop (mem ++ [rulePolicy r]) rest).2) := by
  rw [NewRouters.loop]
  unfold rulePolicy PolicyHeap.alloc
  cases r.RetryPolicy <;> rfl

theorem NewRouters_loop_heap (mem : PolicyHeap) (rs : List BasicServiceRoute) :
    (NewRouters.loop mem rs).1 = mem ++ rs.map rulePolicy := by
  induction rs generalizing mem with
  | nil => simp [NewRouters.loop]
  | cons r rest ih => rw [NewRouters_loop_cons]; simp [ih]

theorem NewRouters_loop_length (mem : PolicyHeap) (rs : List BasicServiceRoute) :
    (NewRouters.loop mem rs).2.length = rs.length := by
  induction rs generalizing mem with
  | nil => simp [NewRouters.loop]
  | cons r rest ih => rw [NewRouters_loop_cons]; simp [ih]

theorem NewRouters_loop_entry (mem : PolicyHeap) (rs : List BasicServiceRoute) (i : Nat)
    (r : BasicServiceRoute) (hi : rs[i]? = some r) :
    (NewRouters.loop mem rs).2[i]? =
      some (.static { name := r.Name, service := r.Service, cluster := r.Cluster
                      globalTimeout := r.GlobalTimeout, policy := some (mem.length + i) }) := by
  induction rs generalizing mem i with
  | nil => simp at hi
  | cons r0 rest ih =>
    rw [NewRouters_loop_cons]
    cases i with
    | zero =>
      simp only [List.getElem?_cons_zero, Option.some.injEq] at hi
      subst hi
      simp
    | succ k =>
      simp only [List.getElem?_cons_succ] at hi
      have h := ih (mem ++ [rulePolicy r0]) k hi
      simp only [List.length_append, List.length_singleton] at h
      simp only [List.getElem?_cons_succ, h]
      have : mem.length + 1 + k = mem.length + (k + 1) := by omega
      rw [this]

/-- C11, as amended: `NewRouters` returns the invalid-configuration error
exactly for a config that is not a `*v2.Proxy`; for a non-nil `*v2.Proxy` it
succeeds with a table of `len(Routes)` static entries in configuration order
(fields copied from the rule, each with a policy object of its own holding the
rule's policy), followed by one dynamic entry exactly when `SupportDynamicRoute`
is set; the dynamic entry shares timeout and policy pointer with the first
entry when there are rules and otherwise has `types.GlobalTimeout` and a fresh
zero policy. -/
theorem NewRouters_builds_table (g : Duration) (mem : PolicyHeap) :
    (∀ config, NewRouters g mem config = .ok (.error "invalid config struct") ↔
        ∃ tag, config = .other tag) ∧
    ∀ cfg : Proxy, ∃ mem' rc,
      NewRouters g mem (.proxy (some cfg)) = .ok (.routers mem' rc) ∧
      rc.routers.length = cfg.Routes.length + (if cfg.SupportDynamicRoute then 1 else 0) ∧
      (∀ i r, cfg.Routes[i]? = some r →
        rc.routers[i]? =
          some (.static { name := r.Name, service := r.Service, cluster := r.Cluster
                          globalTimeout := r.GlobalTimeout
                          policy := some (mem.length + i) }) ∧
        mem'[mem.length + i]? = some (rulePolicy r)) ∧
      (cfg.SupportDynamicRoute = true →
        ∃ d, rc.routers[cfg.Routes.length]? = some (.dynamic d) ∧
          (∀ first, rc.routers[0]? = some first → cfg.Routes ≠ [] →
            d.globalTimeout = first.GlobalTimeout ∧ d.policy = first.Policy) ∧
          (cfg.Routes = [] →
            d.globalTimeout = g ∧ d.policy = some mem.length ∧
            mem'[mem.length]? =
              some { retryOn := false, retryTimeout := 0, numRetries := 0 })) := by
  refine ⟨?_, ?_⟩
  · intro config
    cases config with
    | other tag => simp [NewRouters]
    | proxy p =>
      cases p with
      | none => simp [NewRouters]
      | some cfg =>
        simp only [NewRouters, reduceCtorEq, exists_false, iff_false]
        split
        · split <;> simp
        · simp
  · intro cfg
    have hheap := NewRouters_loop_heap mem cfg.Routes
    have hlen := NewRouters_loop_length mem cfg.Routes
    have hentry := NewRouters_loop_entry mem cfg.Routes
    have hpol : ∀ i r, cfg.Routes[i]? = some r →
        (mem ++ cfg.Routes.map rulePolicy)[mem.length + i]? = some (rulePolicy r) := by
      intro i r hi
      rw [List.getElem?_append_right (Nat.le_add_right _ _)]
      simp [hi]
    by_cases hflag : cfg.SupportDynamicRoute = true
    · cases hb : (NewRouters.loop mem cfg.Routes).2 with
      | nil =>
        have hnil : cfg.Routes = [] := by
          rw [hb] at hlen
          exact List.length_eq_zero.1 hlen.symm
        have hres : NewRouters g mem (.proxy (some cfg)) =
            .ok (.routers
              ((NewRouters.loop mem cfg.Routes).1.alloc
                { retryOn := false, retryTimeout := 0, numRetries := 0 }).1
              { rMutex := none
                routers := [] ++ [.dynamic
                  { globalTimeout := g
                    policy := ((NewRouters.loop mem cfg.Routes).1.alloc
                      { retryOn := false, retryTimeout := 0, numRetries := 0 }).2 }] }) := by
          simp only [NewRouters, hflag, if_true, hb]
        refine ⟨_, _, hres, ?_, ?_, ?_⟩
        · simp [hflag, hnil]
        · intro i r hi
          simp [hnil] at hi
        · intro _
          refine ⟨{ globalTimeout := g
                    policy := ((NewRouters.loop mem cfg.Routes).1.alloc
                      { retryOn := false, retryTimeout := 0, numRetries := 0 }).2 },
            by simp [hnil], ?_, ?_⟩
          · intro first _ hne
            exact absurd hnil hne
          · intro _
            simp [PolicyHeap.alloc, hnil, NewRouters.loop]
      | cons first tl =>
        have hne : cfg.Routes ≠ [] := by
          intro hnil
          rw [hb, hnil] at hlen
          simp at hlen
        have hres : NewRouters g mem (.proxy (some cfg)) =
            .ok (.routers (NewRouters.loop mem cfg.Routes).1
              { rMutex := none
                routers := first :: tl ++ [.dynamic
                  { globalTimeout := first.GlobalTimeout, policy := first.Policy }] }) := by
          simp only [NewRouters, hflag, if_true, hb]
        refine ⟨_, _, hres, ?_, ?_, ?_⟩
        · rw [← hlen, hb]
          simp [hflag]
        · intro i r hi
          have hi' := hentry i r hi
          rw [hb] at hi'
          have hlt : i < (first :: tl).length := by
            have := (List.getElem?_eq_some_iff.1 hi').1
            exact this
          refine ⟨?_, ?_⟩
          · rw [List.getElem?_append_left hlt]
            exact hi'
          · rw [hheap]
            exact hpol i r hi
        · intro _
          refine ⟨{ globalTimeout := first.GlobalTimeout, policy := first.Policy }, ?_, ?_, ?_⟩
          · rw [← hlen, hb]
            simp
          · intro f hf _
            simp only [List.cons_append, List.getElem?_cons_zero, Option.some.injEq] at hf
            subst hf
            exact ⟨rfl, rfl⟩
          · intro hnil
            exact absurd hnil hne
    · have hflag' : cfg.SupportDynamicRoute = false := by
        simpa using hflag
      have hres : NewRouters g mem (.proxy (some cfg)) =
          .ok (.routers (NewRouters.loop mem cfg.Routes).1
            { rMutex := none, routers := (NewRouters.loop mem cfg.Routes).2 }) := by
        simp only [NewRouters, hflag', Bool.false_eq_true, if_false]
      refine ⟨_, _, hres, ?_, ?_, ?_⟩
      · simp [hlen, hflag']
      · intro i r hi
        exact ⟨hentry i r hi, by rw [hheap]; exact hpol i r hi⟩
      · intro h
        exact absurd h hflag

/-- C11 as stated fails at the nil `*v2.Proxy`: the type assertion accepts it,
reading `config.Routes` panics, and the call returns neither the error nor a
table. -/
theorem NewRouters_nil_proxy_panics :
    (¬ ∃ tag, Config.proxy none = .other tag) ∧
    NewRouters 60000000000 [] (.proxy none) = .error .nilPointerDereference ∧
    ¬ ∃ mem rc, NewRouters 60000000000 [] (.proxy none) = .ok (.routers mem rc) := by
  refine ⟨?_, rfl, ?_⟩
  · rintro ⟨tag, h⟩
    cases h
  · rintro ⟨mem, rc, h⟩
    cases h

/-! ## Routing: the dynamic entry -/

/-- C12, as amended: when the non-empty string `v` is the value under
`"Service"`, or `"Service"` is absent and `v` is the value under `"service"`
(that is, `v` is the service identifier), a `DynamicRouter` returns itself as
the route and `v` as the match key. -/
theorem DynamicRouter_Match_catch_all (d : DynamicRouter) (h : Headers) (v : String)
    (_hv : v ≠ "") (hid : serviceIdentifier h = some v) :
    d.Match h = (some (.dynamic d), v) := by
  unfold serviceIdentifier at hid
  unfold DynamicRouter.Match
  cases h with
  | none => simp at hid
  | some m =>
    simp only at hid ⊢
    cases hS : m "Service" with
    | some a =>
      simp only [hS, Option.some.injEq] at hid
      simp [hid]
    | none =>
      simp only [hS] at hid
      simp [hid]

/-- Witness of C12: the identifier `svc-b` under the fallback key alone. -/
theorem DynamicRouter_Match_catch_all_witness :
    ("svc-b" ≠ "" ∧ serviceIdentifier (sampleHeaders "service" "svc-b") = some "svc-b") ∧
    DynamicRouter.Match { globalTimeout := 5, policy := none }
        (sampleHeaders "service" "svc-b") =
      (some (.dynamic { globalTimeout := 5, policy := none }), "svc-b") :=
  ⟨⟨by decide, by decide⟩,
    DynamicRouter_Match_catch_all { globalTimeout := 5, policy := none }
      (sampleHeaders "service" "svc-b") "svc-b" (by decide) (by decide)⟩

/-- C12 as stated fails when both keys are present: `b` is non-empty and is the
value under `"service"`, yet `Match` returns the key `a` found under
`"Service"`. -/
theorem DynamicRouter_Match_fallback_shadowed :
    "b" ≠ "" ∧
    (∃ m, sampleHeadersBoth "a" "b" = some m ∧ m "service" = some "b") ∧
    DynamicRouter.Match { globalTimeout := 5, policy := none } (sampleHeadersBoth "a" "b") =
      (some (.dynamic { globalTimeout := 5, policy := none }), "a") ∧
    DynamicRouter.Match { globalTimeout := 5, policy := none } (sampleHeadersBoth "a" "b") ≠
      (some (.dynamic { globalTimeout := 5, policy := none }), "b") := by
  refine ⟨by decide, ⟨_, rfl, by decide⟩, by decide, by decide⟩

/-! ## Connection pool: stream resets and close events -/

/-- C13: `onStreamReset(c, r)` from an allocated client `c` does exactly this.
For `StreamConnectionTermination` and `StreamConnectionFailed` it adds 1 to
`UpstreamRequestFailureEject` at host and cluster scope and sets
`c.closeWithActiveReq`; for `StreamLocalReset` it adds 1 to
`UpstreamRequestLocalReset` at both scopes and nothing else; for
`StreamRemoteReset` it adds 1 to `UpstreamRequestRemoteReset` at both scopes and
nothing else; for any other reason the state is as it was. -/
theorem onStreamReset_effect (w : World) (c : Nat) (ac : activeClient)
    (hac : w.clients[c]? = some ac) (r : StreamResetReason) :
    (r = .StreamConnectionTermination ∨ r = .StreamConnectionFailed →
      connPool.onStreamReset w c r = .ok
        { p := { w.p with host :=
            { w.p.host with
              HostStats :=
                { w.p.host.HostStats with UpstreamRequestFailureEject :=
                    w.p.host.HostStats.UpstreamRequestFailureEject + 1 }
              ClusterStats :=
                { w.p.host.ClusterStats with UpstreamRequestFailureEject :=
                    w.p.host.ClusterStats.UpstreamRequestFailureEject + 1 } } }
          clients := w.clients.set c { ac with closeWithActiveReq := true } }) ∧
    (r = .StreamLocalReset →
      connPool.onStreamReset w c r = .ok
        { w with p := { w.p with host :=
            { w.p.host with
              HostStats :=
                { w.p.host.HostStats with UpstreamRequestLocalReset :=
                    w.p.host.HostStats.UpstreamRequestLocalReset + 1 }
              ClusterStats :=
                { w.p.host.ClusterStats with UpstreamRequestLocalReset :=
                    w.p.host.ClusterStats.UpstreamRequestLocalReset + 1 } } } }) ∧
    (r = .StreamRemoteReset →
      connPool.onStreamReset w c r = .ok
        { w with p := { w.p with host :=
            { w.p.host with
              HostStats :=
                { w.p.host.HostStats with UpstreamRequestRemoteReset :=
                    w.p.host.HostStats.UpstreamRequestRemoteReset + 1 }
              ClusterStats :=
                { w.p.host.ClusterStats with UpstreamRequestRemoteReset :=
                    w.p.host.ClusterStats.UpstreamRequestRemoteReset + 1 } } } }) ∧
    (∀ tag, r = .other tag → connPool.onStreamReset w c r = .ok w) := by
  refine ⟨?_, ?_, ?_, ?_⟩
  · intro hr
    unfold connPool.onStreamReset
    simp only [hr, if_true, hac]
  · intro hr
    subst hr
    simp [connPool.onStreamReset]
  · intro hr
    subst hr
    simp [connPool.onStreamReset]
  · intro tag hr
    subst hr
    simp [connPool.onStreamReset]

/-- Witness of C13: a `StreamConnectionTermination` on the live sample pool. -/
theorem onStreamReset_effect_witness :
    ∃ w', connPool.onStreamReset (sampleLiveWorld 3) 0 .StreamConnectionTermination = .ok w' ∧
      w'.p.host.HostStats.UpstreamRequestFailureEject = 1 ∧
      w'.p.host.ClusterStats.UpstreamRequestFailureEject = 1 ∧
      w'.clients[0]?.map (fun a => a.closeWithActiveReq) = some true :=
  ⟨_, (onStreamReset_effect (sampleLiveWorld 3) 0 (sampleClient 0) rfl
        .StreamConnectionTermination).1 (Or.inl rfl), rfl, rfl, rfl⟩

/-- C14, as amended: what a close event counts is the flag
`closeWithActiveReq` of the client that delivers it. With the flag set, a
`LocalClose` adds 1 to `UpstreamConnectionLocalCloseWithActiveRequest` and a
`RemoteClose` adds 1 to `UpstreamConnectionRemoteCloseWithActiveRequest`, each
at host and cluster scope; with the flag unset, a close event changes neither
counter. -/
theorem onConnectionEvent_close_counters (w : World) (c : Nat) (ac : activeClient)
    (hac : w.clients[c]? = some ac) :
    (ac.closeWithActiveReq = true →
      (∃ w', connPool.onConnectionEvent w c .LocalClose = .ok w' ∧
        w'.p.host.HostStats.UpstreamConnectionLocalCloseWithActiveRequest =
          w.p.host.HostStats.UpstreamConnectionLocalCloseWithActiveRequest + 1 ∧
        w'.p.host.ClusterStats.UpstreamConnectionLocalCloseWithActiveRequest =
          w.p.host.ClusterStats.UpstreamConnectionLocalCloseWithActiveRequest + 1) ∧
      (∃ w', connPool.onConnectionEvent w c .RemoteClose = .ok w' ∧
        w'.p.host.HostStats.UpstreamConnectionRemoteCloseWithActiveRequest =
          w.p.host.HostStats.UpstreamConnectionRemoteCloseWithActiveRequest + 1 ∧
        w'.p.host.ClusterStats.UpstreamConnectionRemoteCloseWithActiveRequest =
          w.p.host.ClusterStats.UpstreamConnectionRemoteCloseWithActiveRequest + 1)) ∧
    (ac.closeWithActiveReq = false → ∀ ev : ConnectionEvent, ev.IsClose = true →
      ∃ w', connPool.onConnectionEvent w c ev = .ok w' ∧
        w'.p.host.HostStats.UpstreamConnectionLocalCloseWithActiveRequest =
          w.p.host.HostStats.UpstreamConnectionLocalCloseWithActiveRequest ∧
        w'.p.host.ClusterStats.UpstreamConnectionLocalCloseWithActiveRequest =
          w.p.host.ClusterStats.UpstreamConnectionLocalCloseWithActiveRequest ∧
        w'.p.host.HostStats.UpstreamConnectionRemoteCloseWithActiveRequest =
          w.p.host.HostStats.UpstreamConnectionRemoteCloseWithActiveRequest ∧
        w'.p.host.ClusterStats.UpstreamConnectionRemoteCloseWithActiveRequest =
          w.p.host.ClusterStats.UpstreamConnectionRemoteCloseWithActiveRequest) := by
  refine ⟨?_, ?_⟩
  · intro hflag
    refine ⟨?_, ?_⟩
    · simp [connPool.onConnectionEvent, ConnectionEvent.IsClose, hac, hflag]
    · simp [connPool.onConnectionEvent, ConnectionEvent.IsClose, hac, hflag]
  · intro hflag ev hclose
    simp [connPool.onConnectionEvent, hclose, hac, hflag]

/-- Witness of C14: the client of the live sample pool, its flag unset, delivers
a `RemoteClose`. -/
theorem onConnectionEvent_close_counters_witness :
    ∃ w', connPool.onConnectionEvent (sampleLiveWorld 3) 0 .RemoteClose = .ok w' ∧
      w'.p.host.HostStats.UpstreamConnectionRemoteCloseWithActiveRequest = 0 ∧
      w'.p.host.ClusterStats.UpstreamConnectionRemoteCloseWithActiveRequest = 0 :=
  match (onConnectionEvent_close_counters (sampleLiveWorld 3) 0 (sampleClient 0) rfl).2
      rfl .RemoteClose rfl with
  | ⟨w', hw, _, _, hh, hc⟩ => ⟨w', hw, hh, hc⟩

/-- C14 as stated fails in both directions. A fresh pool admits `"s1"`, which
is in flight (no `onStreamDestroy` yet), and a `LocalClose` from its client
leaves `UpstreamConnectionLocalCloseWithActiveRequest` at 0. And after a
`StreamConnectionTermination` reset and the `onStreamDestroy` of that stream,
with nothing in flight, a `LocalClose` raises the counter to 1. -/
theorem close_counter_ignores_streams_in_flight :
    ∃ r w1 w2 w3,
      connPool.NewStream (NewConnPool (sampleHost 5)) "s1" 7 = .ok r ∧
      r.calls = [.OnPoolReady "s1" { client := 0, streamId := "s1", decoder := 7 } 1] ∧
      r.world.p.host.Requests.current = 1 ∧
      connPool.onConnectionEvent r.world 0 .LocalClose = .ok w1 ∧
      w1.p.host.HostStats.UpstreamConnectionLocalCloseWithActiveRequest = 0 ∧
      w1.p.host.ClusterStats.UpstreamConnectionLocalCloseWithActiveRequest = 0 ∧
      connPool.onStreamReset r.world 0 .StreamConnectionTermination = .ok w2 ∧
      (connPool.onStreamDestroy w2 0).p.host.Requests.current = 0 ∧
      connPool.onConnectionEvent (connPool.onStreamDestroy w2 0) 0 .LocalClose = .ok w3 ∧
      w3.p.host.HostStats.UpstreamConnectionLocalCloseWithActiveRequest = 1 ∧
      w3.p.host.ClusterStats.UpstreamConnectionLocalCloseWithActiveRequest = 1 :=
  ⟨_, _, _, _, rfl, rfl, rfl, rfl, rfl, rfl, rfl, rfl, rfl, rfl, rfl⟩

/-! ## Routing: cluster names of matched entries -/

theorem Route_loop_some (h : Headers) (l : List RouteBase) (e : RouteBase) (k : String)
    (hr : Routers.Route.loop h l = (some e, k)) : e ∈ l ∧ e.Match h = (some e, k) := by
  induction l with
  | nil => simp [Routers.Route.loop] at hr
  | cons r rest ih =>
    unfold Routers.Route.loop at hr
    rcases hm : r.Match h with ⟨rule, key⟩
    rw [hm] at hr
    cases rule with
    | none =>
      simp only at hr
      exact ⟨List.mem_cons_of_mem _ (ih hr).1, (ih hr).2⟩
    | some x =>
      simp only [Prod.mk.injEq, Option.some.injEq] at hr
      obtain ⟨hx, hk⟩ := hr
      subst hx
      subst hk
      have hself := RouteBase_Match_fst r h
      rw [hm] at hself
      simp only [reduceCtorEq, Option.some.injEq, false_or] at hself
      subst hself
      exact ⟨List.mem_cons_self _ _, hm⟩

theorem DynamicRouter_Match_key (d : DynamicRouter) (h : Headers) (x : RouteBase) (k : String)
    (hm : d.Match h = (some x, k)) : serviceIdentifier h = some k := by
  unfold DynamicRouter.Match at hm
  unfold serviceIdentifier
  cases h with
  | none => simp at hm
  | some m =>
    simp only at hm ⊢
    cases hS : m "Service" with
    | some a =>
      simp only [hS, Prod.mk.injEq] at hm
      simp [hm.2]
    | none =>
      simp only [hS] at hm ⊢
      cases hs : m "service" with
      | some b =>
        simp only [hs, Prod.mk.injEq] at hm
        simp [hm.2]
      | none => simp [hs] at hm

theorem NewRouters_loop_clusters (mem : PolicyHeap) (rs : List BasicServiceRoute)
    (hrs : ∀ r ∈ rs, r.Cluster ≠ "") :
    ∀ e ∈ (NewRouters.loop mem rs).2, ∀ srr, e = .static srr → srr.cluster ≠ "" := by
  induction rs generalizing mem with
  | nil => simp [NewRouters.loop]
  | cons r rest ih =>
    rw [NewRouters_loop_cons]
    intro e he srr hes
    simp only [List.mem_cons] at he
    rcases he with he | he
    · rw [he] at hes
      simp only [RouteBase.static.injEq] at hes
      rw [← hes]
      exact hrs r (List.mem_cons_self _ _)
    · exact ih (mem ++ [rulePolicy r]) (fun x hx => hrs x (List.mem_cons_of_mem _ hx))
        e he srr hes

theorem NewRouters_clusters (g : Duration) (mem mem0 : PolicyHeap) (cfg : Proxy)
    (rc0 : Routers) (hcfg : ∀ r ∈ cfg.Routes, r.Cluster ≠ "")
    (hbuild : NewRouters g mem (.proxy (some cfg)) = .ok (.routers mem0 rc0)) :
    ∀ e ∈ rc0.routers, ∀ srr, e = .static srr → srr.cluster ≠ "" := by
  have hloop := NewRouters_loop_clusters mem cfg.Routes hcfg
  unfold NewRouters at hbuild
  simp only at hbuild
  split at hbuild
  · split at hbuild
    · rename_i first tl hb
      simp only [Except.ok.injEq, NewRoutersResult.routers.injEq] at hbuild
      rw [← hbuild.2]
      intro e he srr hes
      simp only [List.mem_append, List.mem_singleton] at he
      rcases he with he | he
      · exact hloop e he srr hes
      · rw [he] at hes
        cases hes
    · rename_i hb
      simp only [Except.ok.injEq, NewRoutersResult.routers.injEq] at hbuild
      rw [← hbuild.2]
      intro e he srr hes
      simp only [List.mem_append, List.mem_singleton] at he
      rcases he with he | he
      · exact hloop e he srr hes
      · rw [he] at hes
        cases hes
  · simp only [Except.ok.injEq, NewRoutersResult.routers.injEq] at hbuild
    rw [← hbuild.2]
    exact hloop

theorem NewRouters_loop_static (mem : PolicyHeap) (rs : List BasicServiceRoute) :
    ∀ e ∈ (NewRouters.loop mem rs).2, e.isDynamic = false := by
  induction rs generalizing mem with
  | nil => simp [NewRouters.loop]
  | cons r rest ih =>
    rw [NewRouters_loop_cons]
    intro e he
    simp only [List.mem_cons] at he
    rcases he with he | he
    · rw [he]
      rfl
    · exact ih (mem ++ [rulePolicy r]) e he

/-- The table `NewRouters` returns has no lock, and its entries are the static
entries of the rules followed by nothing or by one dynamic entry. -/
theorem NewRouters_table_shape (g : Duration) (mem mem0 : PolicyHeap) (cfg : Proxy)
    (rc0 : Routers)
    (hbuild : NewRouters g mem (.proxy (some cfg)) = .ok (.routers mem0 rc0)) :
    rc0.rMutex = none ∧
    ∃ dyn : List RouteBase, rc0.routers = (NewRouters.loop mem cfg.Routes).2 ++ dyn ∧
      (dyn = [] ∨ ∃ d, dyn = [.dynamic d]) := by
  unfold NewRouters at hbuild
  simp only at hbuild
  split at hbuild
  · split at hbuild
    · rename_i first tl hb
      simp only [Except.ok.injEq, NewRoutersResult.routers.injEq] at hbuild
      rw [← hbuild.2]
      exact ⟨rfl, _, by rw [hb], Or.inr ⟨_, rfl⟩⟩
    · rename_i hb
      simp only [Except.ok.injEq, NewRoutersResult.routers.injEq] at hbuild
      rw [← hbuild.2]
      exact ⟨rfl, _, rfl, Or.inr ⟨_, rfl⟩⟩
  · simp only [Except.ok.injEq, NewRoutersResult.routers.injEq] at hbuild
    rw [← hbuild.2]
    exact ⟨rfl, [], by simp, Or.inl rfl⟩

/-- On a table without lock every `AddRouter` and `DelRouter` call panics, so a
sequence of calls leaves heap and table as they were. -/
theorem applyOps_nil_lock (g : Duration) (ops : List RouterOp) (s : PolicyHeap × Routers)
    (hlock : s.2.rMutex = none) : applyOps g s ops = s := by
  induction ops with
  | nil => rfl
  | cons op rest ih =>
    cases op with
    | add n =>
      have h : Routers.afterAddRouter g s n = s := by
        simp [Routers.afterAddRouter, Routers.AddRouter, hlock]
      simp only [applyOps, h]
      exact ih
    | del n =>
      have h : s.2.afterDelRouter n = s.2 := by
        simp [Routers.afterDelRouter, Routers.DelRouter, hlock]
      simp only [applyOps, h]
      exact ih

/-- A run in which every call returns leaves what `applyOps` leaves. -/
theorem runOps_ok_applyOps (g : Duration) (ops : List RouterOp) (s s1 : PolicyHeap × Routers)
    (hrun : runOps g s ops = .ok s1) : applyOps g s ops = s1 := by
  induction ops generalizing s with
  | nil =>
    simp only [runOps, Except.ok.injEq] at hrun
    exact hrun
  | cons op rest ih =>
    cases op with
    | add n =>
      simp only [runOps] at hrun
      cases hadd : Routers.AddRouter g s.1 s.2 n with
      | error e => simp [hadd] at hrun
      | ok s2 =>
        simp only [hadd] at hrun
        have h : Routers.afterAddRouter g s n = s2 := by
          simp [Routers.afterAddRouter, hadd]
        simp only [applyOps, h]
        exact ih s2 hrun
    | del n =>
      simp only [runOps] at hrun
      cases hdel : s.2.DelRouter n with
      | error e => simp [hdel] at hrun
      | ok rc2 =>
        simp only [hdel] at hrun
        have h : s.2.afterDelRouter n = rc2 := by
          simp [Routers.afterDelRouter, hdel]
        simp only [applyOps, h]
        exact ih (s.1, rc2) hrun

/-- C15, as amended: take a table built by `NewRouters` from a configuration
whose rules all name a non-empty cluster, then any sequence of `AddRouter` and
`DelRouter` calls on it, and headers whose service identifier is not the empty
string. If `Route` on the table these calls leave returns the route `e` with
key `k`, then `e.ClusterName(k)` is non-empty. -/
theorem Route_ClusterName_nonempty (g : Duration) (mem mem0 : PolicyHeap) (cfg : Proxy)
    (rc0 : Routers) (ops : List RouterOp) (h : Headers) (e : RouteBase) (k : String)
    (hcfg : ∀ r ∈ cfg.Routes, r.Cluster ≠ "")
    (hbuild : NewRouters g mem (.proxy (some cfg)) = .ok (.routers mem0 rc0))
    (hid : serviceIdentifier h ≠ some "")
    (hroute : (applyOps g (mem0, rc0) ops).2.Route h = (some e, k)) :
    e.ClusterName k ≠ "" := by
  have hinv0 := NewRouters_clusters g mem mem0 cfg rc0 hcfg hbuild
  have hlock := (NewRouters_table_shape g mem mem0 cfg rc0 hbuild).1
  rw [applyOps_nil_lock g ops (mem0, rc0) hlock] at hroute
  obtain ⟨hmem, hmatch⟩ := Route_loop_some h rc0.routers e k hroute
  cases e with
  | static srr => exact hinv0 _ hmem srr rfl
  | dynamic d =>
    have hkey := DynamicRouter_Match_key d h _ k hmatch
    simp only [RouteBase.ClusterName, DynamicRouter.MapRule]
    intro hk
    rw [hk] at hkey
    exact hid hkey

/-- Witness of C15: the table of `sampleProxy`, then `AddRouter("")`,
`AddRouter("B")` and `DelRouter("A")`, and a request for `svc-a`: `Route`
returns the entry `A`, whose cluster name is non-empty. -/
theorem Route_ClusterName_nonempty_witness :
    Routers.Route
        (applyOps 60000000000 ([{ retryOn := false, retryTimeout := 0, numRetries := 0 }],
          { rMutex := none, routers := [sampleEntry] }) [.add "", .add "B", .del "A"]).2
        (sampleHeaders "Service" "svc-a") = (some sampleEntry, "svc-a") ∧
    RouteBase.ClusterName sampleEntry "svc-a" ≠ "" :=
  ⟨by decide,
    Route_ClusterName_nonempty 60000000000 [] _ sampleProxy
      { rMutex := none, routers := [sampleEntry] } [.add "", .add "B", .del "A"]
      (sampleHeaders "Service" "svc-a") sampleEntry "svc-a" (by decide) rfl (by decide)
      (by decide)⟩

/-- C15 as stated fails on tables `NewRouters` builds, whatever calls follow.
With the dynamic rule enabled and headers whose `"Service"` value is the empty
string, `Route` returns the dynamic entry with the empty key, and its
`ClusterName` is the empty string. With a rule whose cluster is the empty
string, `Route` returns that rule's entry for its service, and its
`ClusterName` is the empty string. -/
theorem Route_ClusterName_empty :
    (∃ mem rc e,
      NewRouters 60000000000 [] (.proxy (some sampleDynamicProxy)) = .ok (.routers mem rc) ∧
      (applyOps 60000000000 (mem, rc) []).2.Route (sampleHeaders "Service" "") =
        (some e, "") ∧
      e.ClusterName "" = "") ∧
    (∃ mem rc e,
      NewRouters 60000000000 [] (.proxy (some sampleEmptyClusterProxy)) =
        .ok (.routers mem rc) ∧
      (applyOps 60000000000 (mem, rc) []).2.Route (sampleHeaders "Service" "svc-a") =
        (some e, "svc-a") ∧
      e.ClusterName "svc-a" = "") :=
  ⟨⟨[{ retryOn := false, retryTimeout := 0, numRetries := 0 }],
      { rMutex := none
        routers := [.dynamic { globalTimeout := 60000000000, policy := some 0 }] },
      .dynamic { globalTimeout := 60000000000, policy := some 0 }, rfl, by decide, rfl⟩,
    ⟨[{ retryOn := false, retryTimeout := 0, numRetries := 0 }],
      { rMutex := none
        routers :=
          [.static { name := "A", service := "svc-a", cluster := "", globalTimeout := 5
                     policy := some 0 }] },
      .static { name := "A", service := "svc-a", cluster := "", globalTimeout := 5
                policy := some 0 }, rfl, by decide, rfl⟩⟩

/-! ## Routing: the dynamic entry under `DelRouter` and `AddRouter` -/

theorem split_at_first_named (l : List RouteBase) (n : String)
    (hex : ∃ x ∈ l, x.GetRouterName = n) :
    ∃ pre e post, l = pre ++ e :: post ∧ (∀ x ∈ pre, x.GetRouterName ≠ n) ∧
      e.GetRouterName = n := by
  induction l with
  | nil => simp at hex
  | cons r rest ih =>
    by_cases hr : r.GetRouterName = n
    · exact ⟨[], r, rest, rfl, by simp, hr⟩
    · have hex' : ∃ x ∈ rest, x.GetRouterName = n := by
        obtain ⟨x, hx, hxn⟩ := hex
        simp only [List.mem_cons] at hx
        rcases hx with hx | hx
        · subst hx
          exact absurd hxn hr
        · exact ⟨x, hx, hxn⟩
      obtain ⟨pre, e, post, hsplit, hpre, he⟩ := ih hex'
      refine ⟨r :: pre, e, post, by simp [hsplit], ?_, he⟩
      intro x hx
      simp only [List.mem_cons] at hx
      rcases hx with hx | hx
      · subst hx
        exact hr
      · exact hpre x hx

/-- Behind the lock, on a table whose `rMutex` is set (no table `NewRouters`
returns is one): `DelRouter(n)` with a non-empty `n` returns a table with
exactly the dynamic entries of the table it was given; `DelRouter("")` removes
a dynamic entry that no entry with an empty name precedes. -/
theorem DelRouter_dynamic_entries (rc : Routers) (m : RWMutex) (hlock : rc.rMutex = some m) :
    (∀ n, n ≠ "" → ∃ rc', rc.DelRouter n = .ok rc' ∧
      rc'.routers.filter RouteBase.isDynamic = rc.routers.filter RouteBase.isDynamic) ∧
    (∀ pre d post, rc.routers = pre ++ .dynamic d :: post →
      (∀ x ∈ pre, x.GetRouterName ≠ "") →
      rc.DelRouter "" = .ok { rMutex := rc.rMutex, routers := pre ++ post }) := by
  refine ⟨?_, ?_⟩
  · intro n hn
    by_cases hex : ∃ x ∈ rc.routers, x.GetRouterName = n
    · obtain ⟨pre, e, post, hsplit, hpre, he⟩ := split_at_first_named rc.routers n hex
      refine ⟨_, (DelRouter_locked_removes_first rc n m hlock).1 pre e post hsplit hpre he, ?_⟩
      have hstatic : e.isDynamic = false := by
        cases e with
        | static srr => rfl
        | dynamic d =>
          simp only [RouteBase.GetRouterName] at he
          exact absurd he.symm hn
      simp [hsplit, List.filter_cons, hstatic]
    · have habs : ∀ x ∈ rc.routers, x.GetRouterName ≠ n :=
        fun x hx hxn => hex ⟨x, hx, hxn⟩
      exact ⟨rc, (DelRouter_locked_removes_first rc n m hlock).2 habs, rfl⟩
  · intro pre d post hsplit hpre
    exact (DelRouter_locked_removes_first rc "" m hlock).1 pre (.dynamic d) post hsplit hpre rfl

/-- Behind the lock: `DelRouter("A")` on the table `[A, dynamic]` with its lock
set. -/
theorem DelRouter_dynamic_entries_witness :
    ∃ rc', Routers.DelRouter
        { rMutex := some {}
          routers := [sampleEntry, .dynamic { globalTimeout := 5, policy := some 0 }] } "A" =
        .ok rc' ∧
      rc'.routers.filter RouteBase.isDynamic =
        [.dynamic { globalTimeout := 5, policy := some 0 }] :=
  (DelRouter_dynamic_entries
    { rMutex := some {}
      routers := [sampleEntry, .dynamic { globalTimeout := 5, policy := some 0 }] }
    {} rfl).1 "A" (by decide)

/-- Behind the lock: on the table holding one dynamic entry, with its lock set,
`DelRouter("")` returns the empty table, since a dynamic entry answers `""` to
`GetRouterName`. -/
theorem DelRouter_empty_name_removes_dynamic :
    RouteBase.GetRouterName (.dynamic { globalTimeout := 5, policy := some 0 }) = "" ∧
    Routers.DelRouter
        { rMutex := some {}, routers := [.dynamic { globalTimeout := 5, policy := some 0 }] } "" =
      .ok { rMutex := some {}, routers := [] } ∧
    List.filter RouteBase.isDynamic [] ≠
      List.filter RouteBase.isDynamic
        [RouteBase.dynamic { globalTimeout := 5, policy := some 0 }] := by
  refine ⟨rfl, rfl, by decide⟩

/-- C16: on every table the code builds (`NewRouters`, then any sequence of
`AddRouter` and `DelRouter` calls) and for every name `n`, the empty string
included, the dynamic entries of the table `DelRouter(n)` leaves are exactly
the dynamic entries of the table it was called on: `DelRouter` removes no
dynamic entry. -/
theorem DelRouter_keeps_dynamic_entries (g : Duration) (mem mem0 : PolicyHeap) (cfg : Proxy)
    (rc0 : Routers) (ops : List RouterOp) (n : String)
    (hbuild : NewRouters g mem (.proxy (some cfg)) = .ok (.routers mem0 rc0)) :
    (((applyOps g (mem0, rc0) ops).2.afterDelRouter n).routers.filter RouteBase.isDynamic =
      (applyOps g (mem0, rc0) ops).2.routers.filter RouteBase.isDynamic) := by
  have hlock := (NewRouters_table_shape g mem mem0 cfg rc0 hbuild).1
  rw [applyOps_nil_lock g ops (mem0, rc0) hlock]
  simp [Routers.afterDelRouter, Routers.DelRouter, hlock]

/-- Witness of C16: the table `NewRouters` builds with the dynamic rule enabled,
then `AddRouter("a")`, then `DelRouter("")`: the dynamic entry is still there. -/
theorem DelRouter_keeps_dynamic_entries_witness :
    (Routers.afterDelRouter
        (applyOps 60000000000 ([{ retryOn := false, retryTimeout := 0, numRetries := 0 }],
          { rMutex := none
            routers := [.dynamic { globalTimeout := 60000000000, policy := some 0 }] })
          [.add "a"]).2 "").routers.filter RouteBase.isDynamic =
      [.dynamic { globalTimeout := 60000000000, policy := some 0 }] :=
  DelRouter_keeps_dynamic_entries 60000000000 [] _ sampleDynamicProxy
    { rMutex := none
      routers := [.dynamic { globalTimeout := 60000000000, policy := some 0 }] }
    [.add "a"] "" rfl

/-! ## Connection pool: one client, one release point -/

/-- When the lazy initialisation leaves a client in place, `NewStream` returns,
and keeps the client reference, the number of clients and the connection
counters that the initialisation left. -/
theorem NewStream_keeps_client (w : World) (streamId : String)
    (responseDecoder : StreamDecoder) (c : Nat)
    (hcl : (connPool.NewStream.init w).p.client = some c)
    (hlt : c < (connPool.NewStream.init w).clients.length) :
    ∃ r, connPool.NewStream w streamId responseDecoder = .ok r ∧
      r.world.p.client = some c ∧
      r.world.clients.length = (connPool.NewStream.init w).clients.length ∧
      r.world.connectionCounters = (connPool.NewStream.init w).connectionCounters := by
  unfold connPool.NewStream
  generalize connPool.NewStream.init w = w1 at hcl hlt
  obtain ⟨ac, hac⟩ : ∃ ac, w1.clients[c]? = some ac :=
    ⟨w1.clients[c], List.getElem?_eq_getElem hlt⟩
  by_cases hcan : w1.p.host.Requests.CanCreate = true
  · simp [hcan, World.openStream, hcl, hac, World.connectionCounters]
  · simp only [Bool.not_eq_true] at hcan
    simp [hcan, hcl, World.connectionCounters]

/-- On a fresh pool the lazy initialisation builds the client at address 0 and
raises each connection counter by 1. -/
theorem NewStream_init_fresh (host : Host) :
    (connPool.NewStream.init (NewConnPool host)).p.client = some 0 ∧
    (connPool.NewStream.init (NewConnPool host)).clients.length = 1 ∧
    (connPool.NewStream.init (NewConnPool host)).connectionCounters =
      (NewConnPool host).connectionCounters.map (fun x => x + 1) := by
  simp [connPool.NewStream.init, NewConnPool, newActiveClient, World.connectionCounters]

/-- A run of `NewStream` calls on a pool whose client is in place returns and
keeps the client reference, the number of clients and the connection counters. -/
theorem runNewStreams_keeps_client (reqs : List (String × StreamDecoder)) (w : World) (c : Nat)
    (hcl : w.p.client = some c) (hlt : c < w.clients.length) :
    ∃ w', runNewStreams w reqs = .ok w' ∧ w'.p.client = some c ∧
      w'.clients.length = w.clients.length ∧
      w'.connectionCounters = w.connectionCounters := by
  induction reqs generalizing w with
  | nil => exact ⟨w, rfl, hcl, rfl, rfl⟩
  | cons x rest ih =>
    have hinit := NewStream_init_live w c hcl
    obtain ⟨r, hr, hrc, hrl, hrk⟩ :=
      NewStream_keeps_client w x.1 x.2 c (by rw [hinit]; exact hcl) (by rw [hinit]; exact hlt)
    rw [hinit] at hrl hrk
    obtain ⟨w', hw', hc', hl', hk'⟩ := ih r.world hrc (by rw [hrl]; exact hlt)
    refine ⟨w', ?_, hc', by rw [hl', hrl], by rw [hk', hrk]⟩
    rcases x with ⟨streamId, responseDecoder⟩
    simp only [runNewStreams, hr]
    exact hw'

/-- C17: `N >= 1` successive `NewStream` calls on a fresh pool all return, and
after them one client has been built (the heap holds one client, at address 0,
and it is the pool's client) and `UpstreamConnectionTotal`,
`UpstreamConnectionActive` and `UpstreamConnectionTotalHttp1` stand exactly 1
above their start at host and at cluster scope, whatever the host admits or
rejects. As every non-empty prefix of the calls is such a run, every call
after the first finds that same client. -/
theorem NewStream_builds_one_client (host : Host) (reqs : List (String × StreamDecoder))
    (hne : reqs ≠ []) :
    ∃ w', runNewStreams (NewConnPool host) reqs = .ok w' ∧
      w'.clients.length = 1 ∧ w'.p.client = some 0 ∧
      w'.connectionCounters = (NewConnPool host).connectionCounters.map (fun x => x + 1) := by
  cases reqs with
  | nil => exact absurd rfl hne
  | cons x rest =>
    obtain ⟨hc0, hl0, hk0⟩ := NewStream_init_fresh host
    obtain ⟨r, hr, hrc, hrl, hrk⟩ :=
      NewStream_keeps_client (NewConnPool host) x.1 x.2 0 hc0 (by rw [hl0]; exact Nat.one_pos)
    obtain ⟨w', hw', hc', hl', hk'⟩ :=
      runNewStreams_keeps_client rest r.world 0 hrc (by rw [hrl, hl0]; exact Nat.one_pos)
    refine ⟨w', ?_, by rw [hl', hrl, hl0], hc', by rw [hk', hrk, hk0]⟩
    rcases x with ⟨streamId, responseDecoder⟩
    simp only [runNewStreams, hr]
    exact hw'

/-- Witness of C17: three calls on a fresh pool with room for two requests; the
third is rejected. -/
theorem NewStream_builds_one_client_witness :
    ∃ w', runNewStreams (NewConnPool (sampleHost 2)) [("s1", 7), ("s2", 8), ("s3", 9)] = .ok w' ∧
      w'.clients.length = 1 ∧ w'.p.client = some 0 ∧
      w'.connectionCounters = [1, 1, 1, 1, 1, 1] ∧
      w'.p.host.HostStats.UpstreamRequestPendingOverflow = 1 :=
  match NewStream_builds_one_client (sampleHost 2) [("s1", 7), ("s2", 8), ("s3", 9)]
      (by simp) with
  | ⟨w', hw, hl, hc, hk⟩ =>
    ⟨w', hw, hl, hc, hk, by
      have h : runNewStreams (NewConnPool (sampleHost 2)) [("s1", 7), ("s2", 8), ("s3", 9)] =
          .ok _ := rfl
      rw [h] at hw
      cases hw
      rfl⟩

/-- C18: from an allocated client, no `onConnectionEvent` and no
`onStreamReset` changes the in-flight counter or `UpstreamRequestActive` at host
or cluster scope, and neither do `onGoAway`, `Close` and `DrainConnections`;
`onStreamDestroy` lowers each of the three by exactly 1. -/
theorem admission_released_by_destroy_only (w : World) (c : Nat) (ac : activeClient)
    (hac : w.clients[c]? = some ac) :
    (∀ ev, ∃ w', connPool.onConnectionEvent w c ev = .ok w' ∧
      w'.admissionCounters = w.admissionCounters) ∧
    (∀ r, ∃ w', connPool.onStreamReset w c r = .ok w' ∧
      w'.admissionCounters = w.admissionCounters) ∧
    (connPool.onGoAway w c).admissionCounters = w.admissionCounters ∧
    (connPool.Close w).admissionCounters = w.admissionCounters ∧
    (connPool.DrainConnections w).admissionCounters = w.admissionCounters ∧
    (connPool.onStreamDestroy w c).admissionCounters =
      (w.p.host.Requests.current - 1, w.p.host.HostStats.UpstreamRequestActive - 1,
        w.p.host.ClusterStats.UpstreamRequestActive - 1) := by
  refine ⟨?_, ?_, rfl, rfl, rfl, rfl⟩
  · intro ev
    unfold connPool.onConnectionEvent
    by_cases hclose : ev.IsClose = true
    · simp only [hclose, if_true, hac]
      refine ⟨_, rfl, ?_⟩
      simp only [World.admissionCounters]
      split
      · split
        · rfl
        · split <;> rfl
      · rfl
    · simp only [hclose, Bool.false_eq_true, if_false, hac]
      by_cases ht : ev = .ConnectTimeout
      · simp [ht, World.admissionCounters]
      · by_cases hf : ev = .ConnectFailed
        · simp [hf, World.admissionCounters]
        · simp [ht, hf]
  · intro r
    unfold connPool.onStreamReset
    by_cases h1 : r = .StreamConnectionTermination ∨ r = .StreamConnectionFailed
    · simp only [h1, if_true, hac]
      exact ⟨_, rfl, rfl⟩
    · simp only [h1, if_false]
      by_cases h2 : r = .StreamLocalReset
      · simp [h2, World.admissionCounters]
      · by_cases h3 : r = .StreamRemoteReset
        · simp [h3, World.admissionCounters]
        · simp [h2, h3]

/-- Witness of C18: a `RemoteClose` on the live sample pool keeps the three
counters, and an `onStreamDestroy` lowers each by 1. -/
theorem admission_released_by_destroy_only_witness :
    (∃ w', connPool.onConnectionEvent (sampleLiveWorld 3) 0 .RemoteClose = .ok w' ∧
      w'.admissionCounters = (0, 0, 0)) ∧
    (connPool.onStreamDestroy (sampleLiveWorld 3) 0).admissionCounters = (0 - 1, 0 - 1, 0 - 1) :=
  match admission_released_by_destroy_only (sampleLiveWorld 3) 0 (sampleClient 0) rfl with
  | ⟨hev, _, _, _, _, hd⟩ => ⟨hev .RemoteClose, hd⟩

/-! ## Routing: the table's lock -/

/-- `NewRouters` with the dynamic rule enabled returns the table `[dynamic]`
with `rMutex` nil, and a run with the call `AddRouter("a")` panics. Behind the
lock, on that table with `rMutex` set (no table `NewRouters` returns is one),
`AddRouter("a")` appends the static entry `a` after the dynamic entry, and
`Route` answers a request for `a` with the dynamic entry. -/
theorem AddRouter_after_dynamic_entry :
    ∃ mem rc d,
      NewRouters 60000000000 [] (.proxy (some sampleDynamicProxy)) = .ok (.routers mem rc) ∧
      rc = { rMutex := none, routers := [.dynamic d] } ∧
      runOps 60000000000 (mem, rc) [.add "a"] = .error .nilPointerDereference ∧
      Routers.AddRouter 60000000000 mem { rMutex := some {}, routers := rc.routers } "a" =
        .ok (mem,
          { rMutex := some {}
            routers :=
              [.dynamic d,
                .static { name := "a", service := "a", cluster := "a"
                          globalTimeout := d.globalTimeout, policy := d.policy }] }) ∧
      Routers.Route
          { rMutex := some {}
            routers :=
              [.dynamic d,
                .static { name := "a", service := "a", cluster := "a"
                          globalTimeout := d.globalTimeout, policy := d.policy }] }
          (sampleHeaders "Service" "a") =
        (some (.dynamic d), "a") :=
  ⟨[{ retryOn := false, retryTimeout := 0, numRetries := 0 }],
    { rMutex := none
      routers := [.dynamic { globalTimeout := 60000000000, policy := some 0 }] },
    { globalTimeout := 60000000000, policy := some 0 }, rfl, rfl, rfl, rfl, by decide⟩

/-- C19: on every table `NewRouters` returns and after every sequence of
`AddRouter` and `DelRouter` calls on it, a dynamic entry of the table is its
last entry, and every static entry stands before it, so `Route` tries every
static entry before the catch-all. -/
theorem dynamic_entry_stays_last (g : Duration) (mem mem0 : PolicyHeap) (cfg : Proxy)
    (rc0 : Routers) (ops : List RouterOp) (i : Nat) (d : DynamicRouter)
    (hbuild : NewRouters g mem (.proxy (some cfg)) = .ok (.routers mem0 rc0))
    (hdyn : (applyOps g (mem0, rc0) ops).2.routers[i]? = some (.dynamic d)) :
    i + 1 = (applyOps g (mem0, rc0) ops).2.routers.length ∧
    ∀ j srr, (applyOps g (mem0, rc0) ops).2.routers[j]? = some (.static srr) → j < i := by
  obtain ⟨hlock, dyn, hshape, hdynlist⟩ := NewRouters_table_shape g mem mem0 cfg rc0 hbuild
  have hstatic := NewRouters_loop_static mem cfg.Routes
  rw [applyOps_nil_lock g ops (mem0, rc0) hlock] at hdyn ⊢
  simp only at hdyn ⊢
  rw [hshape] at hdyn ⊢
  have hi : (NewRouters.loop mem cfg.Routes).2.length ≤ i := by
    by_contra hlt
    simp only [Nat.not_le] at hlt
    rw [List.getElem?_append_left hlt] at hdyn
    have hmem := List.getElem?_mem hdyn
    have := hstatic _ hmem
    simp [RouteBase.isDynamic] at this
  rcases hdynlist with hnil | ⟨d', hd'⟩
  · subst hnil
    simp only [List.append_nil] at hdyn
    have hlt := (List.getElem?_eq_some_iff.1 hdyn).1
    omega
  · subst hd'
    have hlt := (List.getElem?_eq_some_iff.1 hdyn).1
    simp only [List.length_append, List.length_singleton] at hlt
    have hieq : i = (NewRouters.loop mem cfg.Routes).2.length := by omega
    refine ⟨by simp only [List.length_append, List.length_singleton]; omega, ?_⟩
    intro j srr hj
    have hjlt := (List.getElem?_eq_some_iff.1 hj).1
    simp only [List.length_append, List.length_singleton] at hjlt
    by_contra hge
    have hjeq : j = (NewRouters.loop mem cfg.Routes).2.length := by omega
    rw [hjeq, List.getElem?_append_right (Nat.le_refl _)] at hj
    simp at hj

/-- Witness of C19: the table `NewRouters` builds from `sampleProxy` with the
dynamic rule enabled, then `AddRouter("a")` and `DelRouter("A")`: the dynamic
entry, at index 1, is the last of the two entries. -/
theorem dynamic_entry_stays_last_witness :
    1 + 1 =
      (applyOps 60000000000 ([{ retryOn := false, retryTimeout := 0, numRetries := 0 }],
        { rMutex := none
          routers := [sampleEntry, .dynamic { globalTimeout := 5, policy := some 0 }] })
        [.add "a", .del "A"]).2.routers.length :=
  (dynamic_entry_stays_last 60000000000 [] _ { sampleProxy with SupportDynamicRoute := true }
    { rMutex := none
      routers := [sampleEntry, .dynamic { globalTimeout := 5, policy := some 0 }] }
    [.add "a", .del "A"] 1 { globalTimeout := 5, policy := some 0 } rfl rfl).1

/-- C20, at every proxy configuration: the table `NewRouters` returns has
`rMutex` nil, and `AddRouter(n)` and `DelRouter(n)` on it panic on the nil
lock, for every name `n`. -/
theorem NewRouters_leaves_lock_nil (g : Duration) (mem : PolicyHeap) (cfg : Proxy)
    (n : String) :
    ∃ mem' rc, NewRouters g mem (.proxy (some cfg)) = .ok (.routers mem' rc) ∧
      rc.rMutex = none ∧
      Routers.AddRouter g mem' rc n = .error .nilPointerDereference ∧
      rc.DelRouter n = .error .nilPointerDereference := by
  have hbuild : ∃ mem' l, NewRouters g mem (.proxy (some cfg)) =
      .ok (.routers mem' { rMutex := none, routers := l }) := by
    unfold NewRouters
    simp only
    split
    · split
      · exact ⟨_, _, rfl⟩
      · exact ⟨_, _, rfl⟩
    · exact ⟨_, _, rfl⟩
  obtain ⟨mem', l, h⟩ := hbuild
  exact ⟨mem', _, h, rfl, rfl, rfl⟩

end Mosn
